import Mathlib

/-!
# AudioDeviceAlsa: stream negotiation, session open/close and transfer handlers

A shallow embedding of `src/async/audio/AsyncAudioDeviceAlsa.cpp`.

* The sound card (the ALSA calls) and the block queue of the base class
  (`putBlocks`, `getBlocks`) are external: their answers are inputs of the
  model.  For `initParams` and `openDevice` the answers of one call sequence
  are collected in a record; for the two readiness handlers the outside world
  is a state machine `Env` whose state is threaded through the calls.
* Every handler run yields the list of calls it issued, in order, with their
  arguments and results (`Ev`), so that statements about which call follows
  which can be made on the trace.
* `int` values are integers.  Conversions that change the value are explicit
  (`toInt32`), a division by zero and a signed overflow are undefined
  behaviour and yield `none` resp. `Status.undefined`.
* The static configuration of the base class (`sample_rate`, `channels`,
  `block_size_hint`, `block_count_hint`) and `mode()` are parameters.
-/

namespace AudioDeviceAlsa

/-! ## Machine integers -/

/-- The value of the low 32 bits of `x` read as `unsigned int`. -/
@[irreducible] def toUInt32 (x : Int) : Int := x % 4294967296

/-- The value of the low 32 bits of `x` read as `int` (two's complement). -/
@[irreducible] def toInt32 (x : Int) : Int :=
  if x % 4294967296 < 2147483648 then x % 4294967296 else x % 4294967296 - 4294967296

/-- Whether `x` is representable as `int`. -/
@[irreducible] def inInt32 (x : Int) : Bool := decide (-2147483648 ≤ x) && decide (x < 2147483648)

/-- The C function `int abs(int)`; undefined at `INT_MIN`. -/
@[irreducible] def absInt (x : Int) : Option Int :=
  if x = -2147483648 then none else some (if x < 0 then -x else x)

/-- The operand of the rate gate, `real_rate - sample_rate`: the subtraction is
done in `unsigned int` (`real_rate` is unsigned) and the result is handed to
`abs` as an `int`. -/
@[irreducible] def rateDiff (real_rate : Nat) (sample_rate : Int) : Int :=
  toInt32 (toUInt32 ((real_rate : Int) - sample_rate))

/-! ## Data model -/

/-- The process-wide audio configuration consumed at open time. -/
structure Config where
  sample_rate : Int
  channels : Int
  block_size_hint : Int
  block_count_hint : Int
deriving DecidableEq, Repr

/-- The open modes of an audio device. -/
inductive Mode
  | MODE_NONE
  | MODE_RD
  | MODE_WR
  | MODE_RDWR
deriving DecidableEq, Repr

def POLLIN : Nat := 1
def POLLOUT : Nat := 4

/-- A poll descriptor record. -/
structure PollFd where
  fd : Int
  events : Nat
  revents : Nat
deriving DecidableEq, Repr

inductive FdWatchType
  | FD_WATCH_RD
  | FD_WATCH_WR
deriving DecidableEq, Repr

/-- One descriptor watch of the event loop. -/
structure FdWatch where
  fd : Int
  type : FdWatchType
  enabled : Bool
deriving DecidableEq, Repr

/-- The descriptor watch group of one stream. -/
structure AlsaWatch where
  pfd_map : List (Int × PollFd)
  watch_list : List FdWatch
deriving DecidableEq, Repr

/-- The watches the constructor of `AlsaWatch` creates for one descriptor. -/
def AlsaWatch.watchesOf (p : PollFd) : List FdWatch :=
  (if p.events &&& POLLOUT ≠ 0 then [⟨p.fd, .FD_WATCH_WR, true⟩] else []) ++
  (if p.events &&& POLLIN ≠ 0 then [⟨p.fd, .FD_WATCH_RD, true⟩] else [])

/-- The constructor `AlsaWatch(pfds, nfds)`. -/
def AlsaWatch.create (pfds : List PollFd) : AlsaWatch :=
  pfds.foldl
    (fun w p =>
      { pfd_map := (w.pfd_map.filter (fun e => e.1 ≠ p.fd)) ++ [(p.fd, p)],
        watch_list := w.watch_list ++ AlsaWatch.watchesOf p })
    ⟨[], []⟩

/-- The method `AlsaWatch::setEnabled`. -/
def AlsaWatch.setEnabled (w : AlsaWatch) (enable : Bool) : AlsaWatch :=
  { w with watch_list := w.watch_list.map (fun f => { f with enabled := enable }) }

/-- The members of `AudioDeviceAlsa`.  A handle or a watch group is `none` when
the pointer is null. -/
structure Session where
  block_size : Int
  block_count : Int
  play_handle : Option Nat
  rec_handle : Option Nat
  play_watch : Option AlsaWatch
  rec_watch : Option AlsaWatch
  duplex : Bool
deriving DecidableEq, Repr

/-- The constructor: all four pointers null; `duplex` is set when the probe
opens both directions.  `block_size` and `block_count` are not initialised by
the constructor, their values are arbitrary. -/
def construct (block_size block_count : Int) (probe_play probe_capture : Bool) : Session :=
  { block_size := block_size, block_count := block_count,
    play_handle := none, rec_handle := none, play_watch := none, rec_watch := none,
    duplex := probe_play && probe_capture }

/-! ## Stream parameter negotiation -/

/-- The answers of the sound card to the calls of one `initParams` run: the
return code of every call and the values the three "near" calls store.
`periods n` is the period count stored in answer to a request for `n` periods. -/
structure ParamsReply where
  hw_params_malloc : Int
  hw_params_any : Int
  set_access : Int
  set_format : Int
  set_rate_near : Int
  real_rate : Nat
  set_channels : Int
  set_period_size_near : Int
  period_size : Nat
  set_periods_near : Int
  periods : Int → Nat
  hw_params : Int
  sw_params_malloc : Int
  sw_params_current : Int
  set_start_threshold : Int
  set_avail_min : Int
  sw_params : Int

/-- The function `AudioDeviceAlsa::initParams`.  The result is `none` when the
run has undefined behaviour (`abs(INT_MIN)`, overflow of the hint product,
division by a zero block size).  The period count is negotiated through a
`uint32_t` pointer to `block_count`: the card reads the recomputed value as its
request and stores what it grants in its place. -/
def initParams (cfg : Config) (hw : ParamsReply) (s : Session) : Option (Bool × Session) :=
  if hw.hw_params_malloc < 0 then some (false, s) else
  if hw.hw_params_any < 0 then some (false, s) else
  if hw.set_access < 0 then some (false, s) else
  if hw.set_format < 0 then some (false, s) else
  if hw.set_rate_near < 0 then some (false, s) else
  match absInt (rateDiff hw.real_rate cfg.sample_rate) with
  | none => none
  | some d =>
    if d > 100 then some (false, s) else
    if hw.set_channels < 0 then some (false, s) else
    if hw.set_period_size_near < 0 then some (false, s) else
    let block_size := toInt32 hw.period_size
    if inInt32 (cfg.block_count_hint * cfg.block_size_hint) = false then none else
    if block_size = 0 then none else
    if inInt32 (Int.tdiv (cfg.block_count_hint * cfg.block_size_hint) block_size) = false then none else
    let block_count := Int.tdiv (cfg.block_count_hint * cfg.block_size_hint) block_size
    let s1 : Session := { s with block_size := block_size, block_count := block_count }
    if hw.set_periods_near < 0 then some (false, s1) else
    let s2 : Session :=
      { s with block_size := block_size,
               block_count := toInt32 (hw.periods (toUInt32 block_count)) }
    if hw.hw_params < 0 then some (false, s2) else
    if hw.sw_params_malloc < 0 then some (false, s2) else
    if hw.sw_params_current < 0 then some (false, s2) else
    if hw.set_start_threshold < 0 then some (false, s2) else
    if hw.set_avail_min < 0 then some (false, s2) else
    if hw.sw_params < 0 then some (false, s2) else
    some (true, s2)

/-! ## Open and close -/

/-- The function `AudioDeviceAlsa::closeDevice`. -/
def closeDevice (s : Session) : Session :=
  let s1 : Session :=
    if s.play_handle ≠ none then { s with play_handle := none, play_watch := none } else s
  if s1.rec_handle ≠ none then { s1 with rec_handle := none, rec_watch := none } else s1

/-- The answers of the sound card for one stream during `openDevice`:
`pcm_open` is the handle stored by a successful `snd_pcm_open` (never null) and
`none` when the call returns a negative code (the pointer is then left as it
was). -/
structure StreamReply where
  pcm_open : Option Nat
  params : ParamsReply
  pfds : List PollFd
  prepare : Int
  start : Int

/-- The answers of the sound card during one `openDevice` call. -/
structure OpenReply where
  play : StreamReply
  capture : StreamReply

/-- The playback half of `openDevice` (the first `if` block, after the initial
`closeDevice`).  `true` means that control reaches the capture half. -/
def openPlayback (cfg : Config) (hw : StreamReply) (mode : Mode) (s : Session) :
    Option (Bool × Session) :=
  if mode = .MODE_WR ∨ mode = .MODE_RDWR then
    match hw.pcm_open with
    | none => some (false, s)
    | some h =>
      match initParams cfg hw.params { s with play_handle := some h } with
      | none => none
      | some (false, s1) => some (false, closeDevice s1)
      | some (true, s1) =>
        let s2 : Session := { s1 with play_watch := some (AlsaWatch.create hw.pfds) }
        if hw.prepare < 0 then some (false, closeDevice s2) else some (true, s2)
  else some (true, s)

/-- The capture half of `openDevice` (the second `if` block). -/
def openCapture (cfg : Config) (hw : StreamReply) (mode : Mode) (s : Session) :
    Option (Bool × Session) :=
  if mode = .MODE_RD ∨ mode = .MODE_RDWR then
    match hw.pcm_open with
    | none => some (false, s)
    | some h =>
      match initParams cfg hw.params { s with rec_handle := some h } with
      | none => none
      | some (false, s1) => some (false, closeDevice s1)
      | some (true, s1) =>
        let s2 : Session := { s1 with rec_watch := some (AlsaWatch.create hw.pfds) }
        if hw.prepare < 0 then some (false, closeDevice s2) else
        if hw.start < 0 then some (false, closeDevice s2) else some (true, s2)
  else some (true, s)

/-- The function `AudioDeviceAlsa::openDevice`. -/
def openDevice (cfg : Config) (hw : OpenReply) (mode : Mode) (s : Session) :
    Option (Bool × Session) :=
  match openPlayback cfg hw.play mode (closeDevice s) with
  | none => none
  | some (false, s1) => some (false, s1)
  | some (true, s1) => openCapture cfg hw.capture mode s1

/-- One call of the session interface with the sound card's answers. -/
inductive Call
  | openDevice (mode : Mode) (hw : OpenReply)
  | closeDevice

/-- The session after one call (`none`: undefined behaviour). -/
def runCall (cfg : Config) (c : Call) (s : Session) : Option Session :=
  match c with
  | .openDevice mode hw => (openDevice cfg hw mode s).map (fun r => r.2)
  | .closeDevice => some (closeDevice s)

/-- The session after a sequence of calls. -/
def runCalls (cfg : Config) : List Call → Session → Option Session
  | [], s => some s
  | c :: cs, s =>
    match runCall cfg c s with
    | none => none
    | some s1 => runCalls cfg cs s1

/-- No stream is live: the four pointers are null. -/
def allNull (s : Session) : Prop :=
  s.play_handle = none ∧ s.rec_handle = none ∧ s.play_watch = none ∧ s.rec_watch = none

instance (s : Session) : Decidable (allNull s) := by
  unfold allNull; infer_instance

/-- Each handle is non-null exactly when its watch group is. -/
def paired (s : Session) : Prop :=
  (s.play_handle ≠ none ↔ s.play_watch ≠ none) ∧ (s.rec_handle ≠ none ↔ s.rec_watch ≠ none)

instance (s : Session) : Decidable (paired s) := by
  unfold paired; infer_instance

/-! ## The outside world of the readiness handlers -/

/-- The states of a PCM stream (`snd_pcm_state_t`). -/
inductive PcmState
  | OPEN
  | SETUP
  | PREPARED
  | RUNNING
  | XRUN
  | DRAINING
  | PAUSED
  | SUSPENDED
  | DISCONNECTED
deriving DecidableEq, Repr

/-- One call issued by a handler, with its argument and its result:
`revents r` is `snd_pcm_poll_descriptors_revents` storing `r`,
`avail_update r` is `snd_pcm_avail_update` returning `r`,
`readi n r` and `writei n r` are transfers of `n` frames returning `r`,
`getBlocks m r` asks the producer for `m` units and gets `r`,
`putBlocks n` hands `n` frames to the consumer and
`setEnabled b` is the call on the watch passed to the handler. -/
inductive Ev
  | revents (r : Nat)
  | avail_update (r : Int)
  | state (st : PcmState)
  | prepare (r : Int)
  | start (r : Int)
  | readi (frames : Int) (r : Int)
  | writei (frames : Int) (r : Int)
  | getBlocks (max : Int) (r : Int)
  | putBlocks (frames : Int)
  | setEnabled (b : Bool)
deriving DecidableEq, Repr

/-- The sound card and the block queue as seen by a handler: every call takes
the state of the world and gives its result and the next state. -/
structure Env (σ : Type) where
  revents : σ → Nat × σ
  avail_update : σ → Int × σ
  pcm_state : σ → PcmState × σ
  prepare : σ → Int × σ
  start : σ → Int × σ
  readi : Int → σ → Int × σ
  writei : Int → σ → Int × σ
  getBlocks : Int → σ → Int × σ
  putBlocks : Int → σ → σ

/-- How a handler run ends: it returns, an `assert` fails, it has undefined
behaviour (division by zero, signed overflow), or the model stops it because
the loop budget is used up. -/
inductive Status
  | returned
  | assertFailed
  | undefined
  | outOfFuel
deriving DecidableEq, Repr

/-- The result of a handler run: the calls issued, how it ended, and the
state of the world afterwards. -/
structure Run (σ : Type) where
  trace : List Ev
  status : Status
  world : σ

/-- The run `r` preceded by the calls `pre`. -/
def Run.after {σ : Type} (pre : List Ev) (r : Run σ) : Run σ :=
  { r with trace := pre ++ r.trace }

/-! ## Capture path -/

/-- The recovery branch of `audioReadHandler` (the body of the first `if`),
entered after the calls `pre`. -/
def captureRecover {σ : Type} (env : Env σ) (pre : List Ev) (w : σ) : Run σ :=
  let p := env.prepare w
  if p.1 < 0 then ⟨pre ++ [.prepare p.1, .setEnabled false], .returned, p.2⟩ else
  let q := env.start p.2
  if q.1 < 0 then ⟨pre ++ [.prepare p.1, .start q.1, .setEnabled false], .returned, q.2⟩
  else ⟨pre ++ [.prepare p.1, .start q.1], .returned, q.2⟩

/-- The transfer branch of `audioReadHandler` (the last `if`), entered after
the calls `pre`. -/
def captureTransfer {σ : Type} (env : Env σ) (block_size channels frames_avail : Int)
    (pre : List Ev) (w : σ) : Run σ :=
  if frames_avail ≥ block_size then
    if channels = 0 then ⟨pre, .undefined, w⟩ else
    if block_size = 0 then ⟨pre, .undefined, w⟩ else
    let frames_to_read := Int.tdiv (min frames_avail (Int.tdiv 4096 channels)) block_size * block_size
    let r := env.readi frames_to_read w
    if r.1 < 0 then ⟨pre ++ [.readi frames_to_read r.1], .returned, r.2⟩ else
    if r.1 ≠ frames_to_read then ⟨pre ++ [.readi frames_to_read r.1], .assertFailed, r.2⟩ else
    ⟨pre ++ [.readi frames_to_read r.1, .putBlocks r.1], .returned, env.putBlocks r.1 r.2⟩
  else ⟨pre, .returned, w⟩

/-- The function `AudioDeviceAlsa::audioReadHandler`.  The stream state is
queried only when the available count is zero (short-circuit evaluation). -/
def audioReadHandler {σ : Type} (env : Env σ) (rec_handle : Option Nat) (mode : Mode)
    (block_size channels : Int) (w : σ) : Run σ :=
  if rec_handle = none then ⟨[], .assertFailed, w⟩ else
  if ¬ (mode = .MODE_RD ∨ mode = .MODE_RDWR) then ⟨[], .assertFailed, w⟩ else
  let v := env.revents w
  if v.1 &&& POLLIN = 0 then ⟨[.revents v.1], .returned, v.2⟩ else
  let a := env.avail_update v.2
  let frames_avail := a.1
  if frames_avail < 0 then
    captureRecover env [.revents v.1, .avail_update frames_avail] a.2
  else if frames_avail = 0 then
    let st := env.pcm_state a.2
    if st.1 ≠ .RUNNING then
      captureRecover env [.revents v.1, .avail_update frames_avail, .state st.1] st.2
    else
      captureTransfer env block_size channels frames_avail
        [.revents v.1, .avail_update frames_avail, .state st.1] st.2
  else
    captureTransfer env block_size channels frames_avail
      [.revents v.1, .avail_update frames_avail] a.2

/-! ## Playback path -/

/-- The `while (1)` loop of `writeSpaceAvailable`; `fuel` bounds the number of
iterations the model follows. -/
def writeLoop {σ : Type} (env : Env σ) (block_size channels : Int) : Nat → σ → Run σ
  | 0, w => ⟨[], .outOfFuel, w⟩
  | fuel + 1, w =>
    let a := env.avail_update w
    let space_avail := a.1
    if space_avail < 0 then
      let p := env.prepare a.2
      if p.1 < 0 then
        ⟨[.avail_update space_avail, .prepare p.1, .setEnabled false], .returned, p.2⟩
      else
        (writeLoop env block_size channels fuel p.2).after
          [.avail_update space_avail, .prepare p.1]
    else
    if channels = 0 then ⟨[.avail_update space_avail], .undefined, a.2⟩ else
    if block_size = 0 then ⟨[.avail_update space_avail], .undefined, a.2⟩ else
    let blocks_to_read := Int.tdiv (min space_avail (Int.tdiv 4096 channels)) block_size
    if blocks_to_read = 0 then ⟨[.avail_update space_avail], .returned, a.2⟩ else
    let g := env.getBlocks blocks_to_read a.2
    let blocks_avail := g.1
    if blocks_avail = 0 then
      ⟨[.avail_update space_avail, .getBlocks blocks_to_read blocks_avail, .setEnabled false],
        .returned, g.2⟩
    else
    if inInt32 (blocks_avail * block_size) = false then
      ⟨[.avail_update space_avail, .getBlocks blocks_to_read blocks_avail], .undefined, g.2⟩
    else
    let frames_to_write := blocks_avail * block_size
    let x := env.writei frames_to_write g.2
    let frames_written := x.1
    if frames_written < 0 then
      let p := env.prepare x.2
      if p.1 < 0 then
        ⟨[.avail_update space_avail, .getBlocks blocks_to_read blocks_avail,
          .writei frames_to_write frames_written, .prepare p.1, .setEnabled false],
          .returned, p.2⟩
      else
        (writeLoop env block_size channels fuel p.2).after
          [.avail_update space_avail, .getBlocks blocks_to_read blocks_avail,
            .writei frames_to_write frames_written, .prepare p.1]
    else
    if frames_written ≠ frames_to_write then
      ⟨[.avail_update space_avail, .getBlocks blocks_to_read blocks_avail,
        .writei frames_to_write frames_written], .assertFailed, x.2⟩
    else
    if frames_to_write ≠ space_avail then
      ⟨[.avail_update space_avail, .getBlocks blocks_to_read blocks_avail,
        .writei frames_to_write frames_written], .returned, x.2⟩
    else
      (writeLoop env block_size channels fuel x.2).after
        [.avail_update space_avail, .getBlocks blocks_to_read blocks_avail,
          .writei frames_to_write frames_written]

/-- The function `AudioDeviceAlsa::writeSpaceAvailable`. -/
def writeSpaceAvailable {σ : Type} (env : Env σ) (play_handle : Option Nat) (mode : Mode)
    (block_size channels : Int) (fuel : Nat) (w : σ) : Run σ :=
  if play_handle = none then ⟨[], .assertFailed, w⟩ else
  if ¬ (mode = .MODE_WR ∨ mode = .MODE_RDWR) then ⟨[], .assertFailed, w⟩ else
  let v := env.revents w
  if v.1 &&& POLLOUT = 0 then ⟨[.revents v.1], .returned, v.2⟩ else
  (writeLoop env block_size channels fuel v.2).after [.revents v.1]

/-! ## Reading a trace -/

def Ev.isRead : Ev → Bool
  | .readi _ _ => true
  | _ => false

def Ev.isWrite : Ev → Bool
  | .writei _ _ => true
  | _ => false

def Ev.isPut : Ev → Bool
  | .putBlocks _ => true
  | _ => false

def Ev.isPrepare : Ev → Bool
  | .prepare _ => true
  | _ => false

def Ev.isStart : Ev → Bool
  | .start _ => true
  | _ => false

/-- The frames the sound card accepted: the sum of the non-negative results
of the write calls. -/
def framesWritten : List Ev → Int
  | [] => 0
  | .writei _ r :: t => (if r < 0 then 0 else r) + framesWritten t
  | _ :: t => framesWritten t

/-! ## A simulated sound card and block queue -/

/-- The state of the simulation: `avail` is the frame count the card reports
(free space when playing, captured frames when recording), `queued` the number
of transfer units the producer holds, `revents` the readiness flags. -/
structure Card where
  avail : Int
  queued : Int
  revents : Nat
deriving DecidableEq, Repr

/-- Modelled from the spec: the block queue of the base class (`getBlocks`,
`putBlocks`) and the sound card are not part of the source file.  `getBlocks`
"returns up to `maxUnits` transfer units", fewer when less is queued; no
hardware call fails, a transfer of `n` frames uses up `n` available frames and
the stream is running. -/
def simEnv : Env Card where
  revents c := (c.revents, c)
  avail_update c := (c.avail, c)
  pcm_state c := (.RUNNING, c)
  prepare c := (0, c)
  start c := (0, c)
  readi n c := (n, { c with avail := c.avail - n })
  writei n c := (n, { c with avail := c.avail - n })
  getBlocks m c := (min m c.queued, { c with queued := c.queued - min m c.queued })
  putBlocks _ c := c

/-! ## Sample answers of the sound card -/

/-- Every call of `initParams` other than the rate comparison succeeds. -/
def stepsSucceed (hw : ParamsReply) : Prop :=
  0 ≤ hw.hw_params_malloc ∧ 0 ≤ hw.hw_params_any ∧ 0 ≤ hw.set_access ∧ 0 ≤ hw.set_format ∧
  0 ≤ hw.set_rate_near ∧ 0 ≤ hw.set_channels ∧ 0 ≤ hw.set_period_size_near ∧
  0 ≤ hw.set_periods_near ∧ 0 ≤ hw.hw_params ∧ 0 ≤ hw.sw_params_malloc ∧
  0 ≤ hw.sw_params_current ∧ 0 ≤ hw.set_start_threshold ∧ 0 ≤ hw.set_avail_min ∧
  0 ≤ hw.sw_params

/-- The recomputation of `block_count` is defined: the hint product and the
quotient fit an `int` and the granted period size is not zero as an `int`. -/
def recomputeDefined (cfg : Config) (hw : ParamsReply) : Prop :=
  inInt32 (cfg.block_count_hint * cfg.block_size_hint) = true ∧
  toInt32 hw.period_size ≠ 0 ∧
  inInt32 (Int.tdiv (cfg.block_count_hint * cfg.block_size_hint) (toInt32 hw.period_size)) = true

/-- A sound card that accepts every request and grants the given rate, period
size and period count, whatever count is asked for. -/
def grants (rate period periods : Nat) : ParamsReply :=
  { hw_params_malloc := 0, hw_params_any := 0, set_access := 0, set_format := 0,
    set_rate_near := 0, real_rate := rate, set_channels := 0, set_period_size_near := 0,
    period_size := period, set_periods_near := 0, periods := fun _ => periods,
    hw_params := 0,
    sw_params_malloc := 0, sw_params_current := 0, set_start_threshold := 0,
    set_avail_min := 0, sw_params := 0 }

/-- A sound card that accepts every request, grants the given rate and period
size and grants the period count it is asked for. -/
def grantsAsked (rate period : Nat) : ParamsReply :=
  { grants rate period 0 with periods := fun n => n.toNat }

/-- A sound card whose stream opens with handle `h`, accepts every parameter
request and has the given poll descriptors; `prepare` and `start` succeed. -/
def streamOk (h : Nat) (pfds : List PollFd) : StreamReply :=
  { pcm_open := some h, params := grants 8000 256 4, pfds := pfds, prepare := 0, start := 0 }

/-- A sound card whose `snd_pcm_open` fails. -/
def streamOpenFails : StreamReply :=
  { pcm_open := none, params := grants 8000 256 4, pfds := [], prepare := 0, start := 0 }

/-! ## Scripted worlds and the shape of a playback run -/

/-- A world that answers from a script: every call takes the next number of
the list as its result (0 when the script is used up). -/
def scriptEnv : Env (List Int) where
  revents l := ((l.headD 0).toNat, l.tail)
  avail_update l := (l.headD 0, l.tail)
  pcm_state l := (if l.headD 0 = 3 then .RUNNING else .XRUN, l.tail)
  prepare l := (l.headD 0, l.tail)
  start l := (l.headD 0, l.tail)
  readi _ l := (l.headD 0, l.tail)
  writei _ l := (l.headD 0, l.tail)
  getBlocks _ l := (l.headD 0, l.tail)
  putBlocks _ l := l

/-- The available frame count a handler run started in world `w` is given. -/
def availSeen {σ : Type} (env : Env σ) (w : σ) : Int :=
  (env.avail_update (env.revents w).2).1

/-- The stream state a capture run started in world `w` is given when it asks. -/
def stateSeen {σ : Type} (env : Env σ) (w : σ) : PcmState :=
  (env.pcm_state (env.avail_update (env.revents w).2).2).1

/-- The number of units the producer hands over at the first `getBlocks` call
of a playback run started in world `w`. -/
def blocksGot {σ : Type} (env : Env σ) (bs ch : Int) (w : σ) : Int :=
  (env.getBlocks (Int.tdiv (min (availSeen env w) (Int.tdiv 4096 ch)) bs)
    (env.avail_update (env.revents w).2).2).1

/-- The result of the first write call of a playback run started in world `w`,
when it writes `n` frames. -/
def firstWritten {σ : Type} (env : Env σ) (bs ch : Int) (w : σ) (n : Int) : Int :=
  (env.writei n
    (env.getBlocks (Int.tdiv (min (availSeen env w) (Int.tdiv 4096 ch)) bs)
      (env.avail_update (env.revents w).2).2).2).1

/-- The call sequences of the playback loop, one rule per way through the loop
body; `m` abbreviates the number of units asked from the producer. -/
inductive LoopTrace (bs ch : Int) : List Ev → Status → Prop
  | stopped : LoopTrace bs ch [] .outOfFuel
  | underrunFatal (S p : Int) : S < 0 → p < 0 →
      LoopTrace bs ch [.avail_update S, .prepare p, .setEnabled false] .returned
  | underrunRetry (S p : Int) (t : List Ev) (st : Status) : S < 0 → 0 ≤ p →
      LoopTrace bs ch t st → LoopTrace bs ch (.avail_update S :: .prepare p :: t) st
  | divByZero (S : Int) : 0 ≤ S → (ch = 0 ∨ bs = 0) →
      LoopTrace bs ch [.avail_update S] .undefined
  | noRoom (S : Int) : 0 ≤ S → ch ≠ 0 → bs ≠ 0 →
      Int.tdiv (min S (Int.tdiv 4096 ch)) bs = 0 →
      LoopTrace bs ch [.avail_update S] .returned
  | noData (S : Int) : 0 ≤ S → ch ≠ 0 → bs ≠ 0 →
      LoopTrace bs ch
        [.avail_update S, .getBlocks (Int.tdiv (min S (Int.tdiv 4096 ch)) bs) 0,
          .setEnabled false] .returned
  | overflow (S b : Int) : 0 ≤ S → ch ≠ 0 → bs ≠ 0 →
      LoopTrace bs ch
        [.avail_update S, .getBlocks (Int.tdiv (min S (Int.tdiv 4096 ch)) bs) b] .undefined
  | writeFatal (S b r p : Int) : 0 ≤ S → ch ≠ 0 → bs ≠ 0 → r < 0 → p < 0 →
      LoopTrace bs ch
        [.avail_update S, .getBlocks (Int.tdiv (min S (Int.tdiv 4096 ch)) bs) b,
          .writei (b * bs) r, .prepare p, .setEnabled false] .returned
  | writeRetry (S b r p : Int) (t : List Ev) (st : Status) :
      0 ≤ S → ch ≠ 0 → bs ≠ 0 → r < 0 → 0 ≤ p → LoopTrace bs ch t st →
      LoopTrace bs ch
        (.avail_update S :: .getBlocks (Int.tdiv (min S (Int.tdiv 4096 ch)) bs) b ::
          .writei (b * bs) r :: .prepare p :: t) st
  | shortWrite (S b r : Int) : 0 ≤ S → ch ≠ 0 → bs ≠ 0 → 0 ≤ r → r ≠ b * bs →
      LoopTrace bs ch
        [.avail_update S, .getBlocks (Int.tdiv (min S (Int.tdiv 4096 ch)) bs) b,
          .writei (b * bs) r] .assertFailed
  | lastWrite (S b : Int) : 0 ≤ S → ch ≠ 0 → bs ≠ 0 → b * bs ≠ S →
      LoopTrace bs ch
        [.avail_update S, .getBlocks (Int.tdiv (min S (Int.tdiv 4096 ch)) bs) b,
          .writei (b * bs) (b * bs)] .returned
  | nextWrite (S b : Int) (t : List Ev) (st : Status) :
      0 ≤ S → ch ≠ 0 → bs ≠ 0 → b * bs = S → LoopTrace bs ch t st →
      LoopTrace bs ch
        (.avail_update S :: .getBlocks (Int.tdiv (min S (Int.tdiv 4096 ch)) bs) b ::
          .writei (b * bs) (b * bs) :: t) st

/-! ## Facts about the integer helpers -/

theorem toInt32_toUInt32_of_small (x : Int) (h1 : -2147483648 ≤ x) (h2 : x < 2147483648) :
    toInt32 (toUInt32 x) = x := by
  unfold toInt32 toUInt32
  split <;> omega

theorem toInt32_of_small (x : Int) (h1 : 0 ≤ x) (h2 : x < 2147483648) :
    toInt32 x = x := by
  unfold toInt32
  split <;> omega

theorem absInt_of_small (x : Int) (h1 : -2147483648 < x) :
    absInt x = some |x| := by
  unfold absInt
  have h : x ≠ -2147483648 := by omega
  rw [if_neg h]
  congr 1
  split
  · rw [abs_of_neg (by assumption)]
  · rw [abs_of_nonneg (by omega)]

/-- What the rate gate compares with 100 when the two rates are less than
`2^31` apart. -/
theorem rateGate_value (G : Nat) (R : Int) (h : |(G : Int) - R| < 2147483648) :
    absInt (rateDiff G R) = some |(G : Int) - R| := by
  have h3 := abs_lt.mp h
  unfold rateDiff
  rw [toInt32_toUInt32_of_small _ (le_of_lt h3.1) h3.2]
  exact absInt_of_small _ h3.1

/-! ## Facts about `initParams`, `closeDevice` and `openDevice` -/

/-- The run of `initParams` never touches the four pointers. -/
theorem initParams_pointers (cfg : Config) (hw : ParamsReply) (s s1 : Session) (b : Bool)
    (h : initParams cfg hw s = some (b, s1)) :
    s1.play_handle = s.play_handle ∧ s1.rec_handle = s.rec_handle ∧
    s1.play_watch = s.play_watch ∧ s1.rec_watch = s.rec_watch := by
  unfold initParams at h
  by_cases c1 : hw.hw_params_malloc < 0
  · rw [if_pos c1] at h
    simp only [Option.some.injEq, Prod.mk.injEq] at h; obtain ⟨-, rfl⟩ := h; exact ⟨rfl, rfl, rfl, rfl⟩
  rw [if_neg c1] at h
  by_cases c2 : hw.hw_params_any < 0
  · rw [if_pos c2] at h
    simp only [Option.some.injEq, Prod.mk.injEq] at h; obtain ⟨-, rfl⟩ := h; exact ⟨rfl, rfl, rfl, rfl⟩
  rw [if_neg c2] at h
  by_cases c3 : hw.set_access < 0
  · rw [if_pos c3] at h
    simp only [Option.some.injEq, Prod.mk.injEq] at h; obtain ⟨-, rfl⟩ := h; exact ⟨rfl, rfl, rfl, rfl⟩
  rw [if_neg c3] at h
  by_cases c4 : hw.set_format < 0
  · rw [if_pos c4] at h
    simp only [Option.some.injEq, Prod.mk.injEq] at h; obtain ⟨-, rfl⟩ := h; exact ⟨rfl, rfl, rfl, rfl⟩
  rw [if_neg c4] at h
  by_cases c5 : hw.set_rate_near < 0
  · rw [if_pos c5] at h
    simp only [Option.some.injEq, Prod.mk.injEq] at h; obtain ⟨-, rfl⟩ := h; exact ⟨rfl, rfl, rfl, rfl⟩
  rw [if_neg c5] at h
  cases hd : absInt (rateDiff hw.real_rate cfg.sample_rate) with
  | none => rw [hd] at h; simp at h
  | some d =>
    rw [hd] at h
    simp only [] at h
    by_cases c6 : d > 100
    · rw [if_pos c6] at h
      simp only [Option.some.injEq, Prod.mk.injEq] at h; obtain ⟨-, rfl⟩ := h; exact ⟨rfl, rfl, rfl, rfl⟩
    rw [if_neg c6] at h
    by_cases c7 : hw.set_channels < 0
    · rw [if_pos c7] at h
      simp only [Option.some.injEq, Prod.mk.injEq] at h; obtain ⟨-, rfl⟩ := h; exact ⟨rfl, rfl, rfl, rfl⟩
    rw [if_neg c7] at h
    by_cases c8 : hw.set_period_size_near < 0
    · rw [if_pos c8] at h
      simp only [Option.some.injEq, Prod.mk.injEq] at h; obtain ⟨-, rfl⟩ := h; exact ⟨rfl, rfl, rfl, rfl⟩
    rw [if_neg c8] at h
    by_cases c9 : inInt32 (cfg.block_count_hint * cfg.block_size_hint) = false
    · rw [if_pos c9] at h
      simp at h
    rw [if_neg c9] at h
    by_cases c10 : toInt32 hw.period_size = 0
    · rw [if_pos c10] at h
      simp at h
    rw [if_neg c10] at h
    by_cases c11 : inInt32 (Int.tdiv (cfg.block_count_hint * cfg.block_size_hint) (toInt32 hw.period_size)) = false
    · rw [if_pos c11] at h
      simp at h
    rw [if_neg c11] at h
    by_cases c12 : hw.set_periods_near < 0
    · rw [if_pos c12] at h
      simp only [Option.some.injEq, Prod.mk.injEq] at h; obtain ⟨-, rfl⟩ := h; exact ⟨rfl, rfl, rfl, rfl⟩
    rw [if_neg c12] at h
    by_cases c13 : hw.hw_params < 0
    · rw [if_pos c13] at h
      simp only [Option.some.injEq, Prod.mk.injEq] at h; obtain ⟨-, rfl⟩ := h; exact ⟨rfl, rfl, rfl, rfl⟩
    rw [if_neg c13] at h
    by_cases c14 : hw.sw_params_malloc < 0
    · rw [if_pos c14] at h
      simp only [Option.some.injEq, Prod.mk.injEq] at h; obtain ⟨-, rfl⟩ := h; exact ⟨rfl, rfl, rfl, rfl⟩
    rw [if_neg c14] at h
    by_cases c15 : hw.sw_params_current < 0
    · rw [if_pos c15] at h
      simp only [Option.some.injEq, Prod.mk.injEq] at h; obtain ⟨-, rfl⟩ := h; exact ⟨rfl, rfl, rfl, rfl⟩
    rw [if_neg c15] at h
    by_cases c16 : hw.set_start_threshold < 0
    · rw [if_pos c16] at h
      simp only [Option.some.injEq, Prod.mk.injEq] at h; obtain ⟨-, rfl⟩ := h; exact ⟨rfl, rfl, rfl, rfl⟩
    rw [if_neg c16] at h
    by_cases c17 : hw.set_avail_min < 0
    · rw [if_pos c17] at h
      simp only [Option.some.injEq, Prod.mk.injEq] at h; obtain ⟨-, rfl⟩ := h; exact ⟨rfl, rfl, rfl, rfl⟩
    rw [if_neg c17] at h
    by_cases c18 : hw.sw_params < 0
    · rw [if_pos c18] at h
      simp only [Option.some.injEq, Prod.mk.injEq] at h; obtain ⟨-, rfl⟩ := h; exact ⟨rfl, rfl, rfl, rfl⟩
    rw [if_neg c18] at h
    simp only [Option.some.injEq, Prod.mk.injEq] at h; obtain ⟨-, rfl⟩ := h; exact ⟨rfl, rfl, rfl, rfl⟩

/-- What a successful `initParams` leaves in the session. -/
theorem initParams_true (cfg : Config) (hw : ParamsReply) (s s1 : Session)
    (h : initParams cfg hw s = some (true, s1)) :
    s1 = { s with
      block_size := toInt32 hw.period_size,
      block_count := toInt32 (hw.periods (toUInt32
        (Int.tdiv (cfg.block_count_hint * cfg.block_size_hint) (toInt32 hw.period_size)))) } ∧
    toInt32 hw.period_size ≠ 0 ∧
    inInt32 (Int.tdiv (cfg.block_count_hint * cfg.block_size_hint) (toInt32 hw.period_size)) =
      true ∧
    ∃ d, absInt (rateDiff hw.real_rate cfg.sample_rate) = some d ∧ d ≤ 100 := by
  unfold initParams at h
  by_cases c1 : hw.hw_params_malloc < 0
  · rw [if_pos c1] at h
    simp at h
  rw [if_neg c1] at h
  by_cases c2 : hw.hw_params_any < 0
  · rw [if_pos c2] at h
    simp at h
  rw [if_neg c2] at h
  by_cases c3 : hw.set_access < 0
  · rw [if_pos c3] at h
    simp at h
  rw [if_neg c3] at h
  by_cases c4 : hw.set_format < 0
  · rw [if_pos c4] at h
    simp at h
  rw [if_neg c4] at h
  by_cases c5 : hw.set_rate_near < 0
  · rw [if_pos c5] at h
    simp at h
  rw [if_neg c5] at h
  cases hd : absInt (rateDiff hw.real_rate cfg.sample_rate) with
  | none => rw [hd] at h; simp at h
  | some d =>
    rw [hd] at h
    simp only [] at h
    by_cases c6 : d > 100
    · rw [if_pos c6] at h
      simp at h
    rw [if_neg c6] at h
    by_cases c7 : hw.set_channels < 0
    · rw [if_pos c7] at h
      simp at h
    rw [if_neg c7] at h
    by_cases c8 : hw.set_period_size_near < 0
    · rw [if_pos c8] at h
      simp at h
    rw [if_neg c8] at h
    by_cases c9 : inInt32 (cfg.block_count_hint * cfg.block_size_hint) = false
    · rw [if_pos c9] at h
      simp at h
    rw [if_neg c9] at h
    by_cases c10 : toInt32 hw.period_size = 0
    · rw [if_pos c10] at h
      simp at h
    rw [if_neg c10] at h
    by_cases c11 : inInt32 (Int.tdiv (cfg.block_count_hint * cfg.block_size_hint) (toInt32 hw.period_size)) = false
    · rw [if_pos c11] at h
      simp at h
    rw [if_neg c11] at h
    by_cases c12 : hw.set_periods_near < 0
    · rw [if_pos c12] at h
      simp at h
    rw [if_neg c12] at h
    by_cases c13 : hw.hw_params < 0
    · rw [if_pos c13] at h
      simp at h
    rw [if_neg c13] at h
    by_cases c14 : hw.sw_params_malloc < 0
    · rw [if_pos c14] at h
      simp at h
    rw [if_neg c14] at h
    by_cases c15 : hw.sw_params_current < 0
    · rw [if_pos c15] at h
      simp at h
    rw [if_neg c15] at h
    by_cases c16 : hw.set_start_threshold < 0
    · rw [if_pos c16] at h
      simp at h
    rw [if_neg c16] at h
    by_cases c17 : hw.set_avail_min < 0
    · rw [if_pos c17] at h
      simp at h
    rw [if_neg c17] at h
    by_cases c18 : hw.sw_params < 0
    · rw [if_pos c18] at h
      simp at h
    rw [if_neg c18] at h
    simp only [Option.some.injEq, Prod.mk.injEq, true_and] at h
    exact ⟨h.symm, c10, by simpa using c11, d, rfl, by omega⟩

theorem closeDevice_allNull (s : Session)
    (hp : s.play_handle = none → s.play_watch = none)
    (hr : s.rec_handle = none → s.rec_watch = none) : allNull (closeDevice s) := by
  unfold allNull closeDevice
  by_cases h1 : s.play_handle = none <;> by_cases h2 : s.rec_handle = none <;>
    simp [h1, h2, hp, hr]

theorem allNull_paired (s : Session) (h : allNull s) : paired s := by
  unfold allNull at h
  unfold paired
  simp [h.1, h.2.1, h.2.2.1, h.2.2.2]

/-- The playback half started with no live stream: it ends paired with the
capture side untouched, and with no live stream when it fails. -/
theorem openPlayback_spec (cfg : Config) (hw : StreamReply) (mode : Mode) (s s1 : Session)
    (b : Bool) (hs : allNull s) (h : openPlayback cfg hw mode s = some (b, s1)) :
    paired s1 ∧ s1.rec_handle = none ∧ s1.rec_watch = none ∧ (b = false → allNull s1) := by
  have hs0 := hs
  unfold allNull at hs
  unfold openPlayback at h
  by_cases hm : mode = .MODE_WR ∨ mode = .MODE_RDWR
  · rw [if_pos hm] at h
    cases ho : hw.pcm_open with
    | none =>
      rw [ho] at h
      simp only [Option.some.injEq, Prod.mk.injEq] at h
      obtain ⟨rfl, rfl⟩ := h
      exact ⟨allNull_paired _ hs0, hs.2.1, hs.2.2.2, fun _ => hs0⟩
    | some hd =>
      rw [ho] at h
      simp only [] at h
      cases hi : initParams cfg hw.params { s with play_handle := some hd } with
      | none => rw [hi] at h; simp at h
      | some r =>
        obtain ⟨b1, s2⟩ := r
        rw [hi] at h
        have hp := initParams_pointers _ _ _ _ _ hi
        simp only [] at hp
        cases b1 with
        | false =>
          simp only [Option.some.injEq, Prod.mk.injEq] at h
          obtain ⟨rfl, rfl⟩ := h
          have hc : allNull (closeDevice s2) :=
            closeDevice_allNull s2 (by rw [hp.1]; simp) (by rw [hp.2.2.2, hs.2.2.2]; simp)
          exact ⟨allNull_paired _ hc, hc.2.1, hc.2.2.2, fun _ => hc⟩
        | true =>
          simp only [] at h
          by_cases hprep : hw.prepare < 0
          · rw [if_pos hprep] at h
            simp only [Option.some.injEq, Prod.mk.injEq] at h
            obtain ⟨rfl, rfl⟩ := h
            have hc : allNull (closeDevice { s2 with play_watch := some (AlsaWatch.create hw.pfds) }) :=
              closeDevice_allNull _ (by simp only []; rw [hp.1]; simp)
                (by simp only []; rw [hp.2.2.2, hs.2.2.2]; simp)
            exact ⟨allNull_paired _ hc, hc.2.1, hc.2.2.2, fun _ => hc⟩
          · rw [if_neg hprep] at h
            simp only [Option.some.injEq, Prod.mk.injEq] at h
            obtain ⟨rfl, rfl⟩ := h
            refine ⟨?_, ?_, ?_, by simp⟩
            · unfold paired
              simp only []
              rw [hp.1, hp.2.1, hp.2.2.2, hs.2.1, hs.2.2.2]
              simp
            · simp only []; rw [hp.2.1, hs.2.1]
            · simp only []; rw [hp.2.2.2, hs.2.2.2]
  · rw [if_neg hm] at h
    simp only [Option.some.injEq, Prod.mk.injEq] at h
    obtain ⟨rfl, rfl⟩ := h
    exact ⟨allNull_paired _ hs0, hs.2.1, hs.2.2.2, by simp⟩

/-- The capture half started from a paired session: it
ends paired, and when it fails either no stream is live or it is the failing
`snd_pcm_open` that returned, leaving the session as it was. -/
theorem openCapture_spec (cfg : Config) (hw : StreamReply) (mode : Mode) (s s1 : Session)
    (b : Bool) (hs : paired s)
    (h : openCapture cfg hw mode s = some (b, s1)) :
    paired s1 ∧
    (b = false → allNull s1 ∨
      ((mode = .MODE_RD ∨ mode = .MODE_RDWR) ∧ hw.pcm_open = none ∧ s1 = s)) := by
  have hs0 := hs
  unfold paired at hs
  have hpw : s.play_handle = none → s.play_watch = none := fun e => by
    by_contra hc
    exact (hs.1.mpr hc) e
  unfold openCapture at h
  by_cases hm : mode = .MODE_RD ∨ mode = .MODE_RDWR
  · rw [if_pos hm] at h
    cases ho : hw.pcm_open with
    | none =>
      rw [ho] at h
      simp only [Option.some.injEq, Prod.mk.injEq] at h
      obtain ⟨rfl, rfl⟩ := h
      exact ⟨hs0, fun _ => Or.inr ⟨hm, rfl, rfl⟩⟩
    | some hd =>
      rw [ho] at h
      simp only [] at h
      cases hi : initParams cfg hw.params { s with rec_handle := some hd } with
      | none => rw [hi] at h; simp at h
      | some r =>
        obtain ⟨b1, s2⟩ := r
        rw [hi] at h
        have hp := initParams_pointers _ _ _ _ _ hi
        simp only [] at hp
        cases b1 with
        | false =>
          simp only [Option.some.injEq, Prod.mk.injEq] at h
          obtain ⟨rfl, rfl⟩ := h
          have hc : allNull (closeDevice s2) :=
            closeDevice_allNull s2 (by rw [hp.1, hp.2.2.1]; exact hpw) (by rw [hp.2.1]; simp)
          exact ⟨allNull_paired _ hc, fun _ => Or.inl hc⟩
        | true =>
          simp only [] at h
          have hc : allNull (closeDevice { s2 with rec_watch := some (AlsaWatch.create hw.pfds) }) :=
            closeDevice_allNull _ (by simp only []; rw [hp.1, hp.2.2.1]; exact hpw)
              (by simp only []; rw [hp.2.1]; simp)
          by_cases hprep : hw.prepare < 0
          · rw [if_pos hprep] at h
            simp only [Option.some.injEq, Prod.mk.injEq] at h
            obtain ⟨rfl, rfl⟩ := h
            exact ⟨allNull_paired _ hc, fun _ => Or.inl hc⟩
          · rw [if_neg hprep] at h
            by_cases hstart : hw.start < 0
            · rw [if_pos hstart] at h
              simp only [Option.some.injEq, Prod.mk.injEq] at h
              obtain ⟨rfl, rfl⟩ := h
              exact ⟨allNull_paired _ hc, fun _ => Or.inl hc⟩
            · rw [if_neg hstart] at h
              simp only [Option.some.injEq, Prod.mk.injEq] at h
              obtain ⟨rfl, rfl⟩ := h
              refine ⟨?_, by simp⟩
              unfold paired
              simp only []
              rw [hp.1, hp.2.1, hp.2.2.1]
              simp [hs.1]
  · rw [if_neg hm] at h
    simp only [Option.some.injEq, Prod.mk.injEq] at h
    obtain ⟨rfl, rfl⟩ := h
    exact ⟨hs0, by simp⟩

/-- Every return of `openDevice` from a paired session is paired; a failing
return leaves no stream live unless the failure is the `snd_pcm_open` of the
capture stream. -/
theorem openDevice_spec (cfg : Config) (hw : OpenReply) (mode : Mode) (s s1 : Session)
    (b : Bool) (hs : paired s) (h : openDevice cfg hw mode s = some (b, s1)) :
    paired s1 ∧
    (b = false → allNull s1 ∨
      ((mode = .MODE_RD ∨ mode = .MODE_RDWR) ∧ hw.capture.pcm_open = none)) := by
  unfold openDevice at h
  have hc : allNull (closeDevice s) :=
    closeDevice_allNull s
      (fun e => by
        by_contra hc
        exact (hs.1.mpr hc) e)
      (fun e => by
        by_contra hc
        exact (hs.2.mpr hc) e)
  cases hp : openPlayback cfg hw.play mode (closeDevice s) with
  | none => rw [hp] at h; simp at h
  | some r =>
    obtain ⟨b1, s2⟩ := r
    rw [hp] at h
    have h2 := openPlayback_spec _ _ _ _ _ _ hc hp
    cases b1 with
    | false =>
      simp only [Option.some.injEq, Prod.mk.injEq] at h
      obtain ⟨rfl, rfl⟩ := h
      exact ⟨h2.1, fun _ => Or.inl (h2.2.2.2 rfl)⟩
    | true =>
      simp only [] at h
      have h3 := openCapture_spec _ _ _ _ _ _ h2.1 h
      refine ⟨h3.1, fun hb => ?_⟩
      rcases h3.2 hb with h4 | h4
      · exact Or.inl h4
      · exact Or.inr ⟨h4.1, h4.2.1⟩

theorem construct_allNull (bs bc : Int) (p c : Bool) : allNull (construct bs bc p c) := by
  unfold allNull construct
  exact ⟨rfl, rfl, rfl, rfl⟩

theorem runCalls_paired (cfg : Config) (calls : List Call) :
    ∀ s s1 : Session, paired s → runCalls cfg calls s = some s1 → paired s1 := by
  induction calls with
  | nil =>
    intro s s1 hs h
    unfold runCalls at h
    simp only [Option.some.injEq] at h
    exact h ▸ hs
  | cons c cs ih =>
    intro s s1 hs h
    unfold runCalls at h
    cases hc : runCall cfg c s with
    | none => rw [hc] at h; simp at h
    | some s2 =>
      rw [hc] at h
      simp only [] at h
      refine ih s2 s1 ?_ h
      cases c with
      | closeDevice =>
        unfold runCall at hc
        simp only [Option.some.injEq] at hc
        rw [← hc]
        exact allNull_paired _ (closeDevice_allNull s
          (fun e => by
            by_contra hx
            exact (hs.1.mpr hx) e)
          (fun e => by
            by_contra hx
            exact (hs.2.mpr hx) e))
      | openDevice mode hw =>
        unfold runCall at hc
        simp only [] at hc
        cases ho : openDevice cfg hw mode s with
        | none => rw [ho] at hc; simp at hc
        | some r =>
          obtain ⟨b, s3⟩ := r
          rw [ho] at hc
          simp only [Option.map_some', Option.some.injEq] at hc
          rw [← hc]
          exact (openDevice_spec _ _ _ _ _ _ hs ho).1

/-! ## The claims about negotiation, open and close -/

theorem initParams_gate_closed (cfg : Config) (hw : ParamsReply) (s : Session) (d : Int)
    (hd : absInt (rateDiff hw.real_rate cfg.sample_rate) = some d) (h : 100 < d) :
    initParams cfg hw s = some (false, s) := by
  unfold initParams
  by_cases c1 : hw.hw_params_malloc < 0
  · rw [if_pos c1]
  rw [if_neg c1]
  by_cases c2 : hw.hw_params_any < 0
  · rw [if_pos c2]
  rw [if_neg c2]
  by_cases c3 : hw.set_access < 0
  · rw [if_pos c3]
  rw [if_neg c3]
  by_cases c4 : hw.set_format < 0
  · rw [if_pos c4]
  rw [if_neg c4]
  by_cases c5 : hw.set_rate_near < 0
  · rw [if_pos c5]
  rw [if_neg c5, hd]
  simp only []
  rw [if_pos (by omega : d > 100)]

theorem initParams_gate_open (cfg : Config) (hw : ParamsReply) (s : Session) (d : Int)
    (hd : absInt (rateDiff hw.real_rate cfg.sample_rate) = some d) (h : d ≤ 100)
    (hs : stepsSucceed hw) (hr : recomputeDefined cfg hw) :
    initParams cfg hw s =
      some (true, { s with
        block_size := toInt32 hw.period_size,
        block_count := toInt32 (hw.periods (toUInt32
        (Int.tdiv (cfg.block_count_hint * cfg.block_size_hint) (toInt32 hw.period_size)))) }) := by
  unfold stepsSucceed at hs
  unfold recomputeDefined at hr
  obtain ⟨h1, h2, h3, h4, h5, h6, h7, h8, h9, h10, h11, h12, h13, h14⟩ := hs
  obtain ⟨r1, r2, r3⟩ := hr
  unfold initParams
  rw [if_neg (by omega : ¬ hw.hw_params_malloc < 0), if_neg (by omega : ¬ hw.hw_params_any < 0),
    if_neg (by omega : ¬ hw.set_access < 0), if_neg (by omega : ¬ hw.set_format < 0),
    if_neg (by omega : ¬ hw.set_rate_near < 0), hd]
  simp only []
  rw [if_neg (by omega : ¬ d > 100), if_neg (by omega : ¬ hw.set_channels < 0),
    if_neg (by omega : ¬ hw.set_period_size_near < 0),
    if_neg (by rw [r1]; simp), if_neg r2, if_neg (by rw [r3]; simp),
    if_neg (by omega : ¬ hw.set_periods_near < 0), if_neg (by omega : ¬ hw.hw_params < 0),
    if_neg (by omega : ¬ hw.sw_params_malloc < 0), if_neg (by omega : ¬ hw.sw_params_current < 0),
    if_neg (by omega : ¬ hw.set_start_threshold < 0), if_neg (by omega : ¬ hw.set_avail_min < 0),
    if_neg (by omega : ¬ hw.sw_params < 0)]

/-- C1, as stated, fails.  First run: requested rate 10 Hz, granted rate
4294967290 Hz; the `unsigned int` difference 4294967280 is -16 as an `int`, the
gate lets it pass and `initParams` returns true although the rates are more
than 100 Hz apart.  Second run: granted rate 50 Hz off, every call succeeds,
the card grants a period size of 0: the block count recomputation divides by
zero and `initParams` does not return true. -/
theorem initParams_rate_gate_counterexample :
    initParams ⟨10, 1, 256, 4⟩ (grants 4294967290 256 4) (construct 0 0 true true) =
        some (true, { construct 0 0 true true with block_size := 256, block_count := 4 }) ∧
    (100 : Int) < |(((grants 4294967290 256 4).real_rate : Nat) : Int) - 10| ∧
    initParams ⟨8000, 1, 256, 4⟩ (grants 8050 0 4) (construct 0 0 true true) = none ∧
    stepsSucceed (grants 8050 0 4) ∧
    |(((grants 8050 0 4).real_rate : Nat) : Int) - 8000| ≤ 100 := by
  refine ⟨by with_unfolding_all decide, by norm_num [grants], by with_unfolding_all decide,
    by unfold stepsSucceed; decide, by norm_num [grants]⟩

/-- C1, amended: the rate gate of `initParams` for a requested rate `R` and a
granted rate `G` less than `2^31` apart.  If `|G - R| > 100` then `initParams`
returns false; if `|G - R| <= 100`, every other call succeeds and the block
count recomputation is defined (the granted period size is not zero as an
`int`, neither the hint product nor the quotient overflows) then `initParams`
returns true. -/
theorem initParams_rate_gate (cfg : Config) (hw : ParamsReply) (s : Session)
    (hrange : |(hw.real_rate : Int) - cfg.sample_rate| < 2147483648) :
    (100 < |(hw.real_rate : Int) - cfg.sample_rate| → initParams cfg hw s = some (false, s)) ∧
    (|(hw.real_rate : Int) - cfg.sample_rate| ≤ 100 → stepsSucceed hw →
      recomputeDefined cfg hw →
      initParams cfg hw s =
        some (true, { s with
          block_size := toInt32 hw.period_size,
          block_count := toInt32 (hw.periods (toUInt32
            (Int.tdiv (cfg.block_count_hint * cfg.block_size_hint)
              (toInt32 hw.period_size)))) })) :=
  ⟨fun h => initParams_gate_closed cfg hw s _ (rateGate_value _ _ hrange) h,
   fun h hs hr => initParams_gate_open cfg hw s _ (rateGate_value _ _ hrange) h hs hr⟩

theorem initParams_rate_gate_witness :
    initParams ⟨8000, 1, 256, 4⟩ (grants 8150 256 4) (construct 0 0 true true) =
        some (false, construct 0 0 true true) ∧
    initParams ⟨8000, 1, 256, 4⟩ (grants 7850 256 4) (construct 0 0 true true) =
        some (false, construct 0 0 true true) ∧
    initParams ⟨8000, 1, 256, 4⟩ (grants 8050 256 4) (construct 0 0 true true) =
        some (true, { construct 0 0 true true with block_size := 256, block_count := 4 }) ∧
    initParams ⟨8000, 1, 256, 4⟩ (grants 7950 256 4) (construct 0 0 true true) =
        some (true, { construct 0 0 true true with block_size := 256, block_count := 4 }) :=
  ⟨(initParams_rate_gate ⟨8000, 1, 256, 4⟩ (grants 8150 256 4) (construct 0 0 true true)
      (by norm_num [grants])).1 (by norm_num [grants]),
   (initParams_rate_gate ⟨8000, 1, 256, 4⟩ (grants 7850 256 4) (construct 0 0 true true)
      (by norm_num [grants])).1 (by norm_num [grants]),
   ((initParams_rate_gate ⟨8000, 1, 256, 4⟩ (grants 8050 256 4) (construct 0 0 true true)
      (by norm_num [grants])).2 (by norm_num [grants]) (by unfold stepsSucceed; decide)
      (by unfold recomputeDefined; with_unfolding_all decide)).trans
        (by with_unfolding_all decide),
   ((initParams_rate_gate ⟨8000, 1, 256, 4⟩ (grants 7950 256 4) (construct 0 0 true true)
      (by norm_num [grants])).2 (by norm_num [grants]) (by unfold stepsSucceed; decide)
      (by unfold recomputeDefined; with_unfolding_all decide)).trans
        (by with_unfolding_all decide)⟩

/-- C2, as stated, fails: the sound card is asked for `4 * 256 / 256 = 4`
periods and grants 2; `initParams` returns true with `block_size = 256` and the
session keeps `block_count = 2`, not the recomputed 4. -/
theorem initParams_block_count_counterexample :
    initParams ⟨8000, 1, 256, 4⟩ (grants 8000 256 2) (construct 0 0 true true) =
        some (true, { construct 0 0 true true with block_size := 256, block_count := 2 }) ∧
    (0 : Int) < ((grants 8000 256 2).period_size : Int) ∧
    Int.tdiv (4 * 256) ((grants 8000 256 2).period_size : Int) = 4 ∧ (2 : Int) ≠ 4 := by
  refine ⟨by with_unfolding_all decide, by decide, by decide, by decide⟩

theorem inInt32_bounds (x : Int) (h : inInt32 x = true) :
    -2147483648 ≤ x ∧ x < 2147483648 := by
  unfold inInt32 at h
  simpa using h

/-- C2, amended: whenever `initParams` returns true with a granted period size
`P`, `0 < P < 2^31`, the session has `block_size = P`; the sound card is asked
for `block_count_hint * block_size_hint / P` periods (passed as `uint32_t`) and
`block_count` is the period count it grants in answer (read as `int`); so
`block_count` is the recomputed value when the card grants the count it is
asked for. -/
theorem initParams_block_params (cfg : Config) (hw : ParamsReply) (s s1 : Session)
    (h : initParams cfg hw s = some (true, s1))
    (hP : 0 < hw.period_size) (hP2 : hw.period_size < 2147483648) :
    s1.block_size = hw.period_size ∧
    s1.block_count =
      toInt32 (hw.periods (toUInt32
        (Int.tdiv (cfg.block_count_hint * cfg.block_size_hint) hw.period_size))) ∧
    (((hw.periods (toUInt32
        (Int.tdiv (cfg.block_count_hint * cfg.block_size_hint) hw.period_size)) : Nat) : Int) =
        toUInt32 (Int.tdiv (cfg.block_count_hint * cfg.block_size_hint) hw.period_size) →
      s1.block_count =
        Int.tdiv (cfg.block_count_hint * cfg.block_size_hint) hw.period_size) := by
  obtain ⟨h1, _, hq, _⟩ := initParams_true cfg hw s s1 h
  have hPe : toInt32 hw.period_size = hw.period_size :=
    toInt32_of_small _ (by omega) (by omega)
  rw [hPe] at h1 hq
  have hb : s1.block_size = hw.period_size := by rw [h1]
  have hc : s1.block_count =
      toInt32 (hw.periods (toUInt32
        (Int.tdiv (cfg.block_count_hint * cfg.block_size_hint) hw.period_size))) := by
    rw [h1]
  refine ⟨hb, hc, fun hg => ?_⟩
  rw [hc, hg]
  have hq2 := inInt32_bounds _ hq
  exact toInt32_toUInt32_of_small _ hq2.1 hq2.2

theorem initParams_block_params_witness :
    initParams ⟨8000, 1, 256, 4⟩ (grantsAsked 8000 128) (construct 0 0 true true) =
        some (true, { construct 0 0 true true with block_size := 128, block_count := 8 }) ∧
    ({ construct 0 0 true true with block_size := 128, block_count := 8 } : Session).block_size =
      ((128 : Nat) : Int) ∧
    ({ construct 0 0 true true with block_size := 128, block_count := 8 } : Session).block_count =
      Int.tdiv (4 * 256) ((128 : Nat) : Int) :=
  have h := initParams_block_params ⟨8000, 1, 256, 4⟩ (grantsAsked 8000 128)
    (construct 0 0 true true)
    { construct 0 0 true true with block_size := 128, block_count := 8 }
    (by with_unfolding_all decide) (by decide) (by decide)
  ⟨by with_unfolding_all decide, h.1, h.2.2 (by with_unfolding_all decide)⟩

/-- C3 fails on the code: in read-write mode, when the playback stream has been
opened and armed and `snd_pcm_open` of the capture stream fails, `openDevice`
returns false and leaves `play_handle` and `play_watch` non-null. -/
theorem openDevice_capture_open_failure_keeps_playback :
    openDevice ⟨8000, 1, 256, 4⟩ ⟨streamOk 7 [⟨3, 4, 0⟩], streamOpenFails⟩ .MODE_RDWR
        (construct 0 0 true true) =
      some (false,
        { block_size := 256, block_count := 4, play_handle := some 7, rec_handle := none,
          play_watch := some ⟨[(3, ⟨3, 4, 0⟩)], [⟨3, .FD_WATCH_WR, true⟩]⟩, rec_watch := none,
          duplex := true }) := by
  with_unfolding_all decide

/-- C10: starting from the constructed session, after every sequence of
`openDevice` and `closeDevice` calls (any modes, any answers of the sound card)
`play_handle` is non-null iff `play_watch` is and `rec_handle` is non-null iff
`rec_watch` is, and a `closeDevice` from there ends with all four null. -/
theorem pairing_invariant (cfg : Config) (calls : List Call) (bs bc : Int) (p c : Bool)
    (s : Session) (h : runCalls cfg calls (construct bs bc p c) = some s) :
    paired s ∧ allNull (closeDevice s) := by
  have hp : paired s :=
    runCalls_paired cfg calls _ s (allNull_paired _ (construct_allNull bs bc p c)) h
  refine ⟨hp, closeDevice_allNull s ?_ ?_⟩
  · intro e
    by_contra hx
    exact (hp.1.mpr hx) e
  · intro e
    by_contra hx
    exact (hp.2.mpr hx) e

theorem pairing_invariant_witness :
    runCalls ⟨8000, 1, 256, 4⟩
        [.openDevice .MODE_RDWR ⟨streamOk 7 [⟨3, 4, 0⟩], streamOk 8 [⟨5, 1, 0⟩]⟩,
         .closeDevice,
         .openDevice .MODE_RDWR ⟨streamOk 9 [⟨3, 4, 0⟩], streamOpenFails⟩]
        (construct 0 0 true true) =
      some { block_size := 256, block_count := 4, play_handle := some 9, rec_handle := none,
             play_watch := some ⟨[(3, ⟨3, 4, 0⟩)], [⟨3, .FD_WATCH_WR, true⟩]⟩,
             rec_watch := none, duplex := true } ∧
    paired { block_size := 256, block_count := 4, play_handle := some 9, rec_handle := none,
             play_watch := some ⟨[(3, ⟨3, 4, 0⟩)], [⟨3, .FD_WATCH_WR, true⟩]⟩,
             rec_watch := none, duplex := true } :=
  ⟨by with_unfolding_all decide,
   (pairing_invariant ⟨8000, 1, 256, 4⟩
      [.openDevice .MODE_RDWR ⟨streamOk 7 [⟨3, 4, 0⟩], streamOk 8 [⟨5, 1, 0⟩]⟩,
       .closeDevice,
       .openDevice .MODE_RDWR ⟨streamOk 9 [⟨3, 4, 0⟩], streamOpenFails⟩]
      0 0 true true _ (by with_unfolding_all decide)).1⟩

/-! ## Facts about the playback loop -/

theorem writeLoop_trace {σ : Type} (env : Env σ) (bs ch : Int) (fuel : Nat) :
    ∀ w : σ, LoopTrace bs ch (writeLoop env bs ch fuel w).trace
      (writeLoop env bs ch fuel w).status := by
  induction fuel with
  | zero =>
    intro w
    unfold writeLoop
    exact LoopTrace.stopped
  | succ n ih =>
    intro w
    unfold writeLoop
    simp only []
    generalize env.avail_update w = A
    by_cases c1 : A.1 < 0
    · rw [if_pos c1]
      by_cases c2 : (env.prepare A.2).1 < 0
      · rw [if_pos c2]
        exact LoopTrace.underrunFatal _ _ c1 c2
      · rw [if_neg c2]
        exact LoopTrace.underrunRetry _ _ _ _ c1 (by omega) (ih _)
    rw [if_neg c1]
    have hS : 0 ≤ A.1 := by omega
    by_cases c3 : ch = 0
    · rw [if_pos c3]
      exact LoopTrace.divByZero _ hS (Or.inl c3)
    rw [if_neg c3]
    by_cases c4 : bs = 0
    · rw [if_pos c4]
      exact LoopTrace.divByZero _ hS (Or.inr c4)
    rw [if_neg c4]
    by_cases c5 : Int.tdiv (min A.1 (Int.tdiv 4096 ch)) bs = 0
    · rw [if_pos c5]
      exact LoopTrace.noRoom _ hS c3 c4 c5
    rw [if_neg c5]
    generalize env.getBlocks (Int.tdiv (min A.1 (Int.tdiv 4096 ch)) bs) A.2 = G
    by_cases c6 : G.1 = 0
    · rw [if_pos c6, c6]
      exact LoopTrace.noData _ hS c3 c4
    rw [if_neg c6]
    by_cases c7 : inInt32 (G.1 * bs) = false
    · rw [if_pos c7]
      exact LoopTrace.overflow _ _ hS c3 c4
    rw [if_neg c7]
    generalize env.writei (G.1 * bs) G.2 = X
    by_cases c8 : X.1 < 0
    · rw [if_pos c8]
      by_cases c9 : (env.prepare X.2).1 < 0
      · rw [if_pos c9]
        exact LoopTrace.writeFatal _ _ _ _ hS c3 c4 c8 c9
      · rw [if_neg c9]
        exact LoopTrace.writeRetry _ _ _ _ _ _ hS c3 c4 c8 (by omega) (ih _)
    rw [if_neg c8]
    by_cases c10 : X.1 ≠ G.1 * bs
    · rw [if_pos c10]
      exact LoopTrace.shortWrite _ _ _ hS c3 c4 (by omega) c10
    rw [if_neg c10]
    have e : X.1 = G.1 * bs := not_not.mp c10
    by_cases c11 : G.1 * bs ≠ A.1
    · rw [if_pos c11, e]
      exact LoopTrace.lastWrite _ _ hS c3 c4 c11
    rw [if_neg c11, e]
    exact LoopTrace.nextWrite _ _ _ _ hS c3 c4 (not_not.mp c11) (ih _)
theorem loopTrace_head {bs ch : Int} {t : List Ev} {st : Status} (h : LoopTrace bs ch t st) :
    (t = [] ∧ st = .outOfFuel) ∨ ∃ S t1, t = .avail_update S :: t1 := by
  cases h <;> simp

theorem loopTrace_underrun {bs ch : Int} {t : List Ev} {st : Status}
    (h : LoopTrace bs ch t st) :
    ∀ r rest, (Ev.avail_update r :: rest) <:+ t → r < 0 →
      ∃ p, (p < 0 ∧ rest = [.prepare p, .setEnabled false] ∧ st = .returned) ∨
        (0 ≤ p ∧ ((∃ r1 t1, rest = .prepare p :: .avail_update r1 :: t1) ∨
          (rest = [.prepare p] ∧ st = .outOfFuel))) := by
  induction h with
  | stopped => intro r rest hsuf hr; simp at hsuf
  | underrunFatal S p hS hp =>
    intro r rest hsuf hr
    simp [List.suffix_cons_iff] at hsuf
    obtain ⟨rfl, rfl⟩ := hsuf
    exact ⟨p, Or.inl ⟨hp, rfl, rfl⟩⟩
  | underrunRetry S p t st hS hp ht ih =>
    intro r rest hsuf hr
    simp [List.suffix_cons_iff] at hsuf
    rcases hsuf with ⟨rfl, rfl⟩ | h2
    · refine ⟨p, Or.inr ⟨hp, ?_⟩⟩
      rcases loopTrace_head ht with ⟨rfl, rfl⟩ | ⟨S1, t1, rfl⟩
      · exact Or.inr ⟨rfl, rfl⟩
      · exact Or.inl ⟨S1, t1, rfl⟩
    · exact ih _ _ h2 hr
  | writeRetry S b r0 p t st hS hc hb hr0 hp ht ih =>
    intro r rest hsuf hr
    simp [List.suffix_cons_iff] at hsuf
    rcases hsuf with ⟨rfl, _⟩ | h2
    · omega
    · exact ih _ _ h2 hr
  | nextWrite S b t st hS hc hb he ht ih =>
    intro r rest hsuf hr
    simp [List.suffix_cons_iff] at hsuf
    rcases hsuf with ⟨rfl, _⟩ | h2
    · omega
    · exact ih _ _ h2 hr
  | _ =>
    intro r rest hsuf hr
    simp [List.suffix_cons_iff] at hsuf
    obtain ⟨rfl, _⟩ := hsuf
    omega

theorem loopTrace_after_write {bs ch : Int} {t : List Ev} {st : Status}
    (h : LoopTrace bs ch t st) :
    ∀ S m b f r rest,
      (Ev.avail_update S :: Ev.getBlocks m b :: Ev.writei f r :: rest) <:+ t →
      0 ≤ r → r = f →
      (f ≠ S → rest = [] ∧ st = .returned) ∧
      (f = S → (∃ S1 t1, rest = .avail_update S1 :: t1) ∨ (rest = [] ∧ st = .outOfFuel)) := by
  induction h with
  | stopped => intro S m b f r rest hsuf h0 he; simp at hsuf
  | underrunRetry S0 p t st hS hp ht ih =>
    intro S m b f r rest hsuf h0 he
    simp [List.suffix_cons_iff] at hsuf
    exact ih _ _ _ _ _ _ hsuf h0 he
  | writeRetry S0 b0 r0 p t st hS hc hb hr0 hp ht ih =>
    intro S m b f r rest hsuf h0 he
    simp [List.suffix_cons_iff] at hsuf
    rcases hsuf with ⟨_, _, ⟨_, rfl⟩, _⟩ | h2
    · omega
    · exact ih _ _ _ _ _ _ h2 h0 he
  | nextWrite S0 b0 t st hS hc hb he0 ht ih =>
    intro S m b f r rest hsuf h0 he
    simp [List.suffix_cons_iff] at hsuf
    rcases hsuf with ⟨rfl, ⟨rfl, rfl⟩, ⟨rfl, _⟩, rfl⟩ | h2
    · refine ⟨fun hne => absurd he0 hne, fun _ => ?_⟩
      rcases loopTrace_head ht with ⟨rfl, rfl⟩ | ⟨S1, t1, rfl⟩
      · exact Or.inr ⟨rfl, rfl⟩
      · exact Or.inl ⟨S1, t1, rfl⟩
    · exact ih _ _ _ _ _ _ h2 h0 he
  | lastWrite S0 b0 hS hc hb hne =>
    intro S m b f r rest hsuf h0 he
    simp [List.suffix_cons_iff] at hsuf
    obtain ⟨rfl, ⟨rfl, rfl⟩, ⟨rfl, _⟩, rfl⟩ := hsuf
    exact ⟨fun _ => ⟨rfl, rfl⟩, fun e => absurd e hne⟩
  | shortWrite S0 b0 r0 hS hc hb hr0 hne =>
    intro S m b f r rest hsuf h0 he
    simp [List.suffix_cons_iff] at hsuf
    obtain ⟨rfl, ⟨rfl, rfl⟩, ⟨rfl, rfl⟩, rfl⟩ := hsuf
    exact absurd he hne
  | writeFatal S0 b0 r0 p hS hc hb hr0 hp =>
    intro S m b f r rest hsuf h0 he
    simp [List.suffix_cons_iff] at hsuf
    obtain ⟨_, _, ⟨_, rfl⟩, _⟩ := hsuf
    omega
  | _ =>
    intro S m b f r rest hsuf h0 he
    simp [List.suffix_cons_iff] at hsuf
theorem loopTrace_write {bs ch : Int} {t : List Ev} {st : Status}
    (h : LoopTrace bs ch t st) :
    ∀ f r, Ev.writei f r ∈ t →
      ∃ S b, [Ev.avail_update S, Ev.getBlocks (Int.tdiv (min S (Int.tdiv 4096 ch)) bs) b,
          Ev.writei f r] <:+: t ∧ 0 ≤ S ∧ f = b * bs := by
  induction h with
  | stopped => intro f r hm; simp at hm
  | underrunRetry S0 p t st hS hp ht ih =>
    intro f r hm
    simp at hm
    obtain ⟨S, b, hin, h0, he⟩ := ih f r hm
    exact ⟨S, b, List.infix_cons (List.infix_cons hin), h0, he⟩
  | writeRetry S0 b0 r0 p t st hS hc hb hr0 hp ht ih =>
    intro f r hm
    simp at hm
    rcases hm with ⟨rfl, rfl⟩ | hm
    · exact ⟨S0, b0, ⟨[], .prepare p :: t, by simp⟩, hS, rfl⟩
    · obtain ⟨S, b, hin, h0, he⟩ := ih f r hm
      exact ⟨S, b, List.infix_cons (List.infix_cons (List.infix_cons (List.infix_cons hin))),
        h0, he⟩
  | nextWrite S0 b0 t st hS hc hb he0 ht ih =>
    intro f r hm
    simp at hm
    rcases hm with ⟨rfl, rfl⟩ | hm
    · exact ⟨S0, b0, ⟨[], t, by simp⟩, hS, rfl⟩
    · obtain ⟨S, b, hin, h0, he⟩ := ih f r hm
      exact ⟨S, b, List.infix_cons (List.infix_cons (List.infix_cons hin)), h0, he⟩
  | lastWrite S0 b0 hS hc hb hne =>
    intro f r hm
    simp at hm
    obtain ⟨rfl, rfl⟩ := hm
    exact ⟨S0, b0, List.infix_refl _, hS, rfl⟩
  | shortWrite S0 b0 r0 hS hc hb hr0 hne =>
    intro f r hm
    simp at hm
    obtain ⟨rfl, rfl⟩ := hm
    exact ⟨S0, b0, List.infix_refl _, hS, rfl⟩
  | writeFatal S0 b0 r0 p hS hc hb hr0 hp =>
    intro f r hm
    simp at hm
    obtain ⟨rfl, rfl⟩ := hm
    exact ⟨S0, b0, ⟨[], [.prepare p, .setEnabled false], by simp⟩, hS, rfl⟩
  | _ =>
    intro f r hm
    simp at hm

/-- The three ways a run of `writeSpaceAvailable` can go. -/
theorem writeSpaceAvailable_shape {σ : Type} (env : Env σ) (ph : Option Nat) (mode : Mode)
    (bs ch : Int) (fuel : Nat) (w : σ) :
    ((writeSpaceAvailable env ph mode bs ch fuel w).trace = [] ∧
      (writeSpaceAvailable env ph mode bs ch fuel w).status = .assertFailed) ∨
    ((writeSpaceAvailable env ph mode bs ch fuel w).trace = [.revents (env.revents w).1] ∧
      (writeSpaceAvailable env ph mode bs ch fuel w).status = .returned) ∨
    (∃ t, (writeSpaceAvailable env ph mode bs ch fuel w).trace =
        .revents (env.revents w).1 :: t ∧
      LoopTrace bs ch t (writeSpaceAvailable env ph mode bs ch fuel w).status) := by
  unfold writeSpaceAvailable
  by_cases c1 : ph = none
  · rw [if_pos c1]; exact Or.inl ⟨rfl, rfl⟩
  rw [if_neg c1]
  by_cases c2 : ¬ (mode = .MODE_WR ∨ mode = .MODE_RDWR)
  · rw [if_pos c2]; exact Or.inl ⟨rfl, rfl⟩
  rw [if_neg c2]
  simp only []
  by_cases c3 : (env.revents w).1 &&& POLLOUT = 0
  · rw [if_pos c3]; exact Or.inr (Or.inl ⟨rfl, rfl⟩)
  rw [if_neg c3]
  exact Or.inr (Or.inr ⟨_, rfl, writeLoop_trace env bs ch fuel _⟩)

/-! ## The claims about the playback loop -/

/-- C6: in a run of `writeSpaceAvailable`, a negative result `r` of the
availability query is followed by one `prepare` call.  When that `prepare`
fails the only further call is `setEnabled(false)` on the watch and the
handler returns; when it succeeds the next call is a new availability query
(or the loop budget of the model ends there). -/
theorem writeSpaceAvailable_underrun_recovery {σ : Type} (env : Env σ) (ph : Option Nat)
    (mode : Mode) (bs ch : Int) (fuel : Nat) (w : σ) (r : Int) (rest : List Ev)
    (hsuf : (Ev.avail_update r :: rest) <:+ (writeSpaceAvailable env ph mode bs ch fuel w).trace)
    (hr : r < 0) :
    ∃ p, (p < 0 ∧ rest = [.prepare p, .setEnabled false] ∧
          (writeSpaceAvailable env ph mode bs ch fuel w).status = .returned) ∨
      (0 ≤ p ∧ ((∃ r1 t1, rest = .prepare p :: .avail_update r1 :: t1) ∨
        (rest = [.prepare p] ∧
          (writeSpaceAvailable env ph mode bs ch fuel w).status = .outOfFuel))) := by
  rcases writeSpaceAvailable_shape env ph mode bs ch fuel w with ⟨h1, _⟩ | ⟨h1, _⟩ | ⟨t, h1, h2⟩
  · rw [h1] at hsuf; simp at hsuf
  · rw [h1] at hsuf; simp [List.suffix_cons_iff] at hsuf
  · rw [h1] at hsuf
    simp only [List.suffix_cons_iff, List.cons.injEq, reduceCtorEq, false_and, false_or] at hsuf
    exact loopTrace_underrun h2 r rest hsuf hr

theorem writeSpaceAvailable_underrun_recovery_witness :
    (writeSpaceAvailable scriptEnv (some 1) .MODE_WR 256 1 3 [4, -32, 0, -32, -1]).trace =
      [.revents 4, .avail_update (-32), .prepare 0, .avail_update (-32), .prepare (-1),
        .setEnabled false] ∧
    ∃ p, (p < 0 ∧
        [Ev.prepare 0, .avail_update (-32), .prepare (-1), .setEnabled false] =
          [.prepare p, .setEnabled false] ∧
        (writeSpaceAvailable scriptEnv (some 1) .MODE_WR 256 1 3 [4, -32, 0, -32, -1]).status =
          .returned) ∨
      (0 ≤ p ∧ ((∃ r1 t1,
          [Ev.prepare 0, .avail_update (-32), .prepare (-1), .setEnabled false] =
            .prepare p :: .avail_update r1 :: t1) ∨
        ([Ev.prepare 0, .avail_update (-32), .prepare (-1), .setEnabled false] = [.prepare p] ∧
          (writeSpaceAvailable scriptEnv (some 1) .MODE_WR 256 1 3
            [4, -32, 0, -32, -1]).status = .outOfFuel))) :=
  ⟨by decide,
   writeSpaceAvailable_underrun_recovery scriptEnv (some 1) .MODE_WR 256 1 3
    [4, -32, 0, -32, -1] (-32) [.prepare 0, .avail_update (-32), .prepare (-1), .setEnabled false]
    ⟨[.revents 4], by decide⟩ (by decide)⟩
/-- C8, as stated, fails.  First run: one unit of 256 frames is written into
exactly 256 free frames (`frames_to_write = space_avail`) and the handler goes
on with another availability query.  Second run: 256 frames are written into
512 free frames (`frames_to_write ≠ space_avail`) and the handler returns with
no further availability query. -/
theorem writeSpaceAvailable_exit_counterexample :
    (writeSpaceAvailable simEnv (some 1) .MODE_WR 256 1 2 ⟨256, 1, 4⟩).trace =
      [.revents 4, .avail_update 256, .getBlocks 1 1, .writei 256 256, .avail_update 0] ∧
    (writeSpaceAvailable simEnv (some 1) .MODE_WR 256 1 2 ⟨512, 1, 4⟩).trace =
      [.revents 4, .avail_update 512, .getBlocks 2 1, .writei 256 256] ∧
    (writeSpaceAvailable simEnv (some 1) .MODE_WR 256 1 2 ⟨512, 1, 4⟩).status = .returned := by
  refine ⟨by with_unfolding_all rfl, by with_unfolding_all rfl, by with_unfolding_all rfl⟩

/-- C8, amended: in a run of `writeSpaceAvailable`, after a write of
`frames_to_write` frames that returned `frames_to_write` and followed an
availability query returning `space_avail`: if `frames_to_write` differs from
`space_avail` the handler returns with no further call, and if it equals
`space_avail` the next call is another availability query (or the loop budget
of the model ends there). -/
theorem writeSpaceAvailable_after_write {σ : Type} (env : Env σ) (ph : Option Nat)
    (mode : Mode) (bs ch : Int) (fuel : Nat) (w : σ) (S m b f r : Int) (rest : List Ev)
    (hsuf : (Ev.avail_update S :: Ev.getBlocks m b :: Ev.writei f r :: rest) <:+
      (writeSpaceAvailable env ph mode bs ch fuel w).trace)
    (h0 : 0 ≤ r) (he : r = f) :
    (f ≠ S → rest = [] ∧ (writeSpaceAvailable env ph mode bs ch fuel w).status = .returned) ∧
    (f = S → (∃ S1 t1, rest = .avail_update S1 :: t1) ∨
      (rest = [] ∧ (writeSpaceAvailable env ph mode bs ch fuel w).status = .outOfFuel)) := by
  rcases writeSpaceAvailable_shape env ph mode bs ch fuel w with ⟨h1, _⟩ | ⟨h1, _⟩ | ⟨t, h1, h2⟩
  · rw [h1] at hsuf; simp at hsuf
  · rw [h1] at hsuf; simp [List.suffix_cons_iff] at hsuf
  · rw [h1] at hsuf
    simp only [List.suffix_cons_iff, List.cons.injEq, reduceCtorEq, false_and, false_or] at hsuf
    exact loopTrace_after_write h2 S m b f r rest hsuf h0 he

theorem writeSpaceAvailable_after_write_witness :
    ((256 : Int) ≠ 512 →
      ([] : List Ev) = [] ∧
      (writeSpaceAvailable simEnv (some 1) .MODE_WR 256 1 2 ⟨512, 1, 4⟩).status = .returned) ∧
    ((256 : Int) = 256 →
      (∃ S1 t1, [Ev.avail_update 0] = .avail_update S1 :: t1) ∨
      ([Ev.avail_update 0] = [] ∧
        (writeSpaceAvailable simEnv (some 1) .MODE_WR 256 1 2 ⟨256, 1, 4⟩).status =
          .outOfFuel)) :=
  ⟨(writeSpaceAvailable_after_write simEnv (some 1) .MODE_WR 256 1 2 ⟨512, 1, 4⟩
      512 2 1 256 256 [] ⟨[.revents 4], by with_unfolding_all rfl⟩
      (by decide) rfl).1,
   (writeSpaceAvailable_after_write simEnv (some 1) .MODE_WR 256 1 2 ⟨256, 1, 4⟩
      256 1 1 256 256 [.avail_update 0] ⟨[.revents 4], by with_unfolding_all rfl⟩
      (by decide) rfl).2⟩

/-! ## Facts about the capture handler -/

theorem tdiv_budget (N bs ch : Int) (hN : 0 ≤ N) (hbs : 0 < bs) (hch : 0 < ch) :
    Int.tdiv (min N (Int.tdiv 4096 ch)) bs = min N (4096 / ch) / bs := by
  have h1 : Int.tdiv 4096 ch = 4096 / ch := Int.tdiv_eq_ediv (by decide) (le_of_lt hch)
  rw [h1]
  have h2 : (0 : Int) ≤ 4096 / ch := Int.ediv_nonneg (by decide) (le_of_lt hch)
  exact Int.tdiv_eq_ediv (le_min hN h2) (le_of_lt hbs)

theorem whole_units (N bs ch : Int) (hbs : 0 < bs) (b : Int)
    (hb : b ≤ min N (4096 / ch) / bs) : b * bs ≤ N ∧ b * bs ≤ 4096 / ch := by
  have h1 : min N (4096 / ch) / bs * bs ≤ min N (4096 / ch) := Int.ediv_mul_le _ (ne_of_gt hbs)
  have h2 : b * bs ≤ min N (4096 / ch) / bs * bs := Int.mul_le_mul_of_nonneg_right hb (le_of_lt hbs)
  have h3 : b * bs ≤ min N (4096 / ch) := le_trans h2 h1
  exact ⟨le_trans h3 (min_le_left _ _), le_trans h3 (min_le_right _ _)⟩

/-- The capture handler once read-readiness is present. -/
theorem audioReadHandler_ready {σ : Type} (env : Env σ) (rh : Option Nat) (mode : Mode)
    (bs ch : Int) (w : σ) (hh : rh ≠ none) (hm : mode = .MODE_RD ∨ mode = .MODE_RDWR)
    (hrev : (env.revents w).1 &&& POLLIN ≠ 0) :
    audioReadHandler env rh mode bs ch w =
      if availSeen env w < 0 then
        captureRecover env [.revents (env.revents w).1, .avail_update (availSeen env w)]
          (env.avail_update (env.revents w).2).2
      else if availSeen env w = 0 then
        if stateSeen env w ≠ .RUNNING then
          captureRecover env
            [.revents (env.revents w).1, .avail_update (availSeen env w),
              .state (stateSeen env w)]
            (env.pcm_state (env.avail_update (env.revents w).2).2).2
        else
          captureTransfer env bs ch (availSeen env w)
            [.revents (env.revents w).1, .avail_update (availSeen env w),
              .state (stateSeen env w)]
            (env.pcm_state (env.avail_update (env.revents w).2).2).2
      else
        captureTransfer env bs ch (availSeen env w)
          [.revents (env.revents w).1, .avail_update (availSeen env w)]
          (env.avail_update (env.revents w).2).2 := by
  unfold audioReadHandler availSeen stateSeen
  rw [if_neg hh, if_neg (not_not.mpr hm)]
  simp only []
  rw [if_neg hrev]
theorem captureRecover_trace {σ : Type} (env : Env σ) (pre : List Ev) (w : σ) :
    ∃ p, (p < 0 ∧ (captureRecover env pre w).trace = pre ++ [.prepare p, .setEnabled false]) ∨
      (0 ≤ p ∧ ∃ q,
        (q < 0 ∧
          (captureRecover env pre w).trace = pre ++ [.prepare p, .start q, .setEnabled false]) ∨
        (0 ≤ q ∧ (captureRecover env pre w).trace = pre ++ [.prepare p, .start q])) := by
  unfold captureRecover
  simp only []
  refine ⟨(env.prepare w).1, ?_⟩
  by_cases c1 : (env.prepare w).1 < 0
  · rw [if_pos c1]
    exact Or.inl ⟨c1, rfl⟩
  rw [if_neg c1]
  refine Or.inr ⟨by omega, (env.start (env.prepare w).2).1, ?_⟩
  by_cases c2 : (env.start (env.prepare w).2).1 < 0
  · rw [if_pos c2]
    exact Or.inl ⟨c2, rfl⟩
  rw [if_neg c2]
  exact Or.inr ⟨by omega, rfl⟩

/-- The transfer branch issues nothing but at most one read and one
`putBlocks`. -/
theorem captureTransfer_trace {σ : Type} (env : Env σ) (bs ch N : Int) (pre : List Ev)
    (w : σ) :
    (captureTransfer env bs ch N pre w).trace = pre ∨
    (bs ≤ N ∧ ch ≠ 0 ∧ bs ≠ 0 ∧ ∃ r,
      (captureTransfer env bs ch N pre w).trace =
        pre ++ .readi (Int.tdiv (min N (Int.tdiv 4096 ch)) bs * bs) r ::
          (if r = Int.tdiv (min N (Int.tdiv 4096 ch)) bs * bs ∧ 0 ≤ r then [.putBlocks r]
           else [])) := by
  unfold captureTransfer
  by_cases c1 : N ≥ bs
  · rw [if_pos c1]
    by_cases c2 : ch = 0
    · rw [if_pos c2]; exact Or.inl rfl
    rw [if_neg c2]
    by_cases c3 : bs = 0
    · rw [if_pos c3]; exact Or.inl rfl
    rw [if_neg c3]
    simp only []
    refine Or.inr ⟨c1, c2, c3,
      (env.readi (Int.tdiv (min N (Int.tdiv 4096 ch)) bs * bs) w).1, ?_⟩
    by_cases c4 : (env.readi (Int.tdiv (min N (Int.tdiv 4096 ch)) bs * bs) w).1 < 0
    · rw [if_pos c4, if_neg (by omega)]
    rw [if_neg c4]
    by_cases c5 : (env.readi (Int.tdiv (min N (Int.tdiv 4096 ch)) bs * bs) w).1 ≠
        Int.tdiv (min N (Int.tdiv 4096 ch)) bs * bs
    · rw [if_pos c5, if_neg (fun h => c5 h.1)]
    rw [if_neg c5, if_pos ⟨not_not.mp c5, by omega⟩]
  · rw [if_neg c1]; exact Or.inl rfl

/-! ## The claims about the capture handler -/

/-- C9: in `audioReadHandler` with read-readiness present, if the available
frame count is negative, or is zero while the stream is not RUNNING, `prepare` is
called exactly once, `start` is called (once) iff that `prepare` succeeded, the
watch passed to the handler is disabled iff `prepare` or `start` failed, and no
read and no `putBlocks` is issued.  If the count is positive, or zero while the
stream is RUNNING, neither `prepare` nor `start` is called and the watch is not
touched. -/
theorem audioReadHandler_recovery {σ : Type} (env : Env σ) (rh : Option Nat) (mode : Mode)
    (bs ch : Int) (w : σ) (hh : rh ≠ none) (hm : mode = .MODE_RD ∨ mode = .MODE_RDWR)
    (hrev : (env.revents w).1 &&& POLLIN ≠ 0) :
    ((availSeen env w < 0 ∨ (availSeen env w = 0 ∧ stateSeen env w ≠ .RUNNING)) →
      ∃ p, (audioReadHandler env rh mode bs ch w).trace.filter Ev.isPrepare = [.prepare p] ∧
        (p < 0 → (audioReadHandler env rh mode bs ch w).trace.filter Ev.isStart = [] ∧
          .setEnabled false ∈ (audioReadHandler env rh mode bs ch w).trace) ∧
        (0 ≤ p → ∃ q,
          (audioReadHandler env rh mode bs ch w).trace.filter Ev.isStart = [.start q] ∧
          (.setEnabled false ∈ (audioReadHandler env rh mode bs ch w).trace ↔ q < 0)) ∧
        (audioReadHandler env rh mode bs ch w).trace.filter Ev.isRead = [] ∧
        (audioReadHandler env rh mode bs ch w).trace.filter Ev.isPut = []) ∧
    ((0 < availSeen env w ∨ (availSeen env w = 0 ∧ stateSeen env w = .RUNNING)) →
      (audioReadHandler env rh mode bs ch w).trace.filter Ev.isPrepare = [] ∧
      (audioReadHandler env rh mode bs ch w).trace.filter Ev.isStart = [] ∧
      ∀ b, Ev.setEnabled b ∉ (audioReadHandler env rh mode bs ch w).trace) := by
  rw [audioReadHandler_ready env rh mode bs ch w hh hm hrev]
  constructor
  · intro herr
    have key : ∀ pre : List Ev, ∀ w1 : σ,
        pre.filter Ev.isPrepare = [] → pre.filter Ev.isStart = [] →
        pre.filter Ev.isRead = [] → pre.filter Ev.isPut = [] → Ev.setEnabled false ∉ pre →
        ∃ p, (captureRecover env pre w1).trace.filter Ev.isPrepare = [.prepare p] ∧
          (p < 0 → (captureRecover env pre w1).trace.filter Ev.isStart = [] ∧
            .setEnabled false ∈ (captureRecover env pre w1).trace) ∧
          (0 ≤ p → ∃ q, (captureRecover env pre w1).trace.filter Ev.isStart = [.start q] ∧
            (.setEnabled false ∈ (captureRecover env pre w1).trace ↔ q < 0)) ∧
          (captureRecover env pre w1).trace.filter Ev.isRead = [] ∧
          (captureRecover env pre w1).trace.filter Ev.isPut = [] := by
      intro pre w1 f1 f2 f3 f4 f5
      obtain ⟨p, hp⟩ := captureRecover_trace env pre w1
      refine ⟨p, ?_⟩
      rcases hp with ⟨hp, ht⟩ | ⟨hp, q, ⟨hq, ht⟩ | ⟨hq, ht⟩⟩
      · rw [ht]
        simp [List.filter_append, f1, f2, f3, f4, Ev.isPrepare, Ev.isStart, Ev.isRead, Ev.isPut]
        omega
      · rw [ht]
        simp [List.filter_append, f1, f2, f3, f4, Ev.isPrepare, Ev.isStart, Ev.isRead, Ev.isPut]
        exact ⟨hp, fun _ => hq⟩
      · rw [ht]
        simp [List.filter_append, f1, f2, f3, f4, f5, Ev.isPrepare, Ev.isStart, Ev.isRead,
          Ev.isPut]
        exact ⟨hp, fun _ => hq⟩
    rcases herr with hneg | ⟨hz, hst⟩
    · rw [if_pos hneg]
      exact key _ _ (by simp [Ev.isPrepare]) (by simp [Ev.isStart]) (by simp [Ev.isRead])
        (by simp [Ev.isPut]) (by simp)
    · rw [if_neg (by omega), if_pos hz, if_pos hst]
      exact key _ _ (by simp [Ev.isPrepare]) (by simp [Ev.isStart]) (by simp [Ev.isRead])
        (by simp [Ev.isPut]) (by simp)
  · intro hok
    have key : ∀ pre : List Ev, ∀ w1 : σ,
        pre.filter Ev.isPrepare = [] → pre.filter Ev.isStart = [] →
        (∀ b, Ev.setEnabled b ∉ pre) →
        (captureTransfer env bs ch (availSeen env w) pre w1).trace.filter Ev.isPrepare = [] ∧
        (captureTransfer env bs ch (availSeen env w) pre w1).trace.filter Ev.isStart = [] ∧
        ∀ b, Ev.setEnabled b ∉ (captureTransfer env bs ch (availSeen env w) pre w1).trace := by
      intro pre w1 f1 f2 f3
      rcases captureTransfer_trace env bs ch (availSeen env w) pre w1 with ht | ⟨_, _, _, r, ht⟩
      · rw [ht]; exact ⟨f1, f2, f3⟩
      · rw [ht]
        split_ifs <;>
          simp [List.filter_append, f1, f2, f3, Ev.isPrepare, Ev.isStart]
    rcases hok with hpos | ⟨hz, hst⟩
    · rw [if_neg (by omega), if_neg (by omega)]
      exact key _ _ (by simp [Ev.isPrepare]) (by simp [Ev.isStart]) (by simp)
    · rw [if_neg (by omega), if_pos hz, if_neg (not_not.mpr hst)]
      exact key _ _ (by simp [Ev.isPrepare]) (by simp [Ev.isStart]) (by simp)
theorem audioReadHandler_recovery_witness :
    (audioReadHandler scriptEnv (some 1) .MODE_RD 256 1 [1, -32, 0, -1]).trace =
      [.revents 1, .avail_update (-32), .prepare 0, .start (-1), .setEnabled false] ∧
    ∃ p, (audioReadHandler scriptEnv (some 1) .MODE_RD 256 1 [1, -32, 0, -1]).trace.filter
          Ev.isPrepare = [.prepare p] ∧
      (p < 0 →
        (audioReadHandler scriptEnv (some 1) .MODE_RD 256 1 [1, -32, 0, -1]).trace.filter
          Ev.isStart = [] ∧
        .setEnabled false ∈
          (audioReadHandler scriptEnv (some 1) .MODE_RD 256 1 [1, -32, 0, -1]).trace) ∧
      (0 ≤ p → ∃ q,
        (audioReadHandler scriptEnv (some 1) .MODE_RD 256 1 [1, -32, 0, -1]).trace.filter
          Ev.isStart = [.start q] ∧
        (.setEnabled false ∈
          (audioReadHandler scriptEnv (some 1) .MODE_RD 256 1 [1, -32, 0, -1]).trace ↔ q < 0)) ∧
      (audioReadHandler scriptEnv (some 1) .MODE_RD 256 1 [1, -32, 0, -1]).trace.filter
        Ev.isRead = [] ∧
      (audioReadHandler scriptEnv (some 1) .MODE_RD 256 1 [1, -32, 0, -1]).trace.filter
        Ev.isPut = [] :=
  ⟨by decide,
   (audioReadHandler_recovery scriptEnv (some 1) .MODE_RD 256 1 [1, -32, 0, -1]
      (by decide) (by decide) (by decide)).1 (Or.inl (by decide))⟩

/-- C4, as stated, fails: with 512 frames available and a block size of 256 the
handler issues one read of 512 frames and one `putBlocks` of 512 frames, not
`512 / 256 = 2` reads of 256 frames. -/
theorem audioReadHandler_single_read_counterexample :
    (audioReadHandler simEnv (some 1) .MODE_RD 256 1 ⟨512, 0, 1⟩).trace =
      [.revents 1, .avail_update 512, .readi 512 512, .putBlocks 512] ∧
    (512 : Int) / 256 = 2 ∧
    ((audioReadHandler simEnv (some 1) .MODE_RD 256 1 ⟨512, 0, 1⟩).trace.filter
      Ev.isRead).length = 1 := by
  refine ⟨by decide, by decide, by decide⟩

/-- C4, amended: in `audioReadHandler` with read-readiness present, block size
and channel count positive and `N` frames reported available: when
`N >= block_size` the handler issues exactly one read call, of
`floor(min(N, 4096 / channels) / block_size) * block_size` frames, and invokes
`putBlocks` once with that frame count when the read returns it (not at all
otherwise); when `N < block_size` it issues no read call and does not invoke
`putBlocks`. -/
theorem audioReadHandler_transfers {σ : Type} (env : Env σ) (rh : Option Nat) (mode : Mode)
    (bs ch : Int) (w : σ) (hh : rh ≠ none) (hm : mode = .MODE_RD ∨ mode = .MODE_RDWR)
    (hrev : (env.revents w).1 &&& POLLIN ≠ 0) (hbs : 0 < bs) (hch : 0 < ch) :
    (bs ≤ availSeen env w → ∃ r,
      (audioReadHandler env rh mode bs ch w).trace.filter Ev.isRead =
        [.readi (min (availSeen env w) (4096 / ch) / bs * bs) r] ∧
      (audioReadHandler env rh mode bs ch w).trace.filter Ev.isPut =
        if r = min (availSeen env w) (4096 / ch) / bs * bs then
          [.putBlocks (min (availSeen env w) (4096 / ch) / bs * bs)]
        else []) ∧
    (availSeen env w < bs →
      (audioReadHandler env rh mode bs ch w).trace.filter Ev.isRead = [] ∧
      (audioReadHandler env rh mode bs ch w).trace.filter Ev.isPut = []) := by
  rw [audioReadHandler_ready env rh mode bs ch w hh hm hrev]
  constructor
  · intro hN
    have hpos : 0 < availSeen env w := by omega
    rw [if_neg (by omega), if_neg (by omega)]
    rcases captureTransfer_trace env bs ch (availSeen env w)
      [.revents (env.revents w).1, .avail_update (availSeen env w)]
      (env.avail_update (env.revents w).2).2 with ht | ⟨_, _, _, r, ht⟩
    · exfalso
      unfold captureTransfer at ht
      rw [if_pos (by omega), if_neg (by omega), if_neg (by omega)] at ht
      simp only [] at ht
      split_ifs at ht <;> simp at ht
    · rw [tdiv_budget _ _ _ (by omega) hbs hch] at ht
      refine ⟨r, ?_⟩
      rw [ht]
      have hF : 0 ≤ min (availSeen env w) (4096 / ch) / bs * bs :=
        Int.mul_nonneg (Int.ediv_nonneg (le_min (by omega)
          (Int.ediv_nonneg (by decide) (by omega))) (by omega)) (by omega)
      by_cases c : r = min (availSeen env w) (4096 / ch) / bs * bs
      · rw [if_pos ⟨c, by omega⟩, if_pos c]
        simp [Ev.isRead, Ev.isPut, c]
      · rw [if_neg (fun h => c h.1), if_neg c]
        simp [Ev.isRead, Ev.isPut]
  · intro hN
    have keyT : ∀ pre : List Ev, ∀ w1 : σ,
        pre.filter Ev.isRead = [] → pre.filter Ev.isPut = [] →
        (captureTransfer env bs ch (availSeen env w) pre w1).trace.filter Ev.isRead = [] ∧
        (captureTransfer env bs ch (availSeen env w) pre w1).trace.filter Ev.isPut = [] := by
      intro pre w1 f1 f2
      rcases captureTransfer_trace env bs ch (availSeen env w) pre w1 with ht | ⟨h1, _⟩
      · rw [ht]; exact ⟨f1, f2⟩
      · omega
    have keyR : ∀ pre : List Ev, ∀ w1 : σ,
        pre.filter Ev.isRead = [] → pre.filter Ev.isPut = [] →
        (captureRecover env pre w1).trace.filter Ev.isRead = [] ∧
        (captureRecover env pre w1).trace.filter Ev.isPut = [] := by
      intro pre w1 f1 f2
      obtain ⟨p, hp⟩ := captureRecover_trace env pre w1
      rcases hp with ⟨_, ht⟩ | ⟨_, q, ⟨_, ht⟩ | ⟨_, ht⟩⟩ <;>
        (rw [ht]; simp [List.filter_append, f1, f2, Ev.isRead, Ev.isPut])
    split_ifs
    · exact keyR _ _ (by simp [Ev.isRead]) (by simp [Ev.isPut])
    · exact keyR _ _ (by simp [Ev.isRead]) (by simp [Ev.isPut])
    · exact keyT _ _ (by simp [Ev.isRead]) (by simp [Ev.isPut])
    · exact keyT _ _ (by simp [Ev.isRead]) (by simp [Ev.isPut])
theorem audioReadHandler_transfers_witness :
    (∃ r,
      (audioReadHandler simEnv (some 1) .MODE_RD 256 1 ⟨512, 0, 1⟩).trace.filter Ev.isRead =
        [.readi 512 r] ∧
      (audioReadHandler simEnv (some 1) .MODE_RD 256 1 ⟨512, 0, 1⟩).trace.filter Ev.isPut =
        if r = 512 then [.putBlocks 512] else []) ∧
    ((audioReadHandler simEnv (some 1) .MODE_RD 256 1 ⟨100, 0, 1⟩).trace.filter Ev.isRead = [] ∧
      (audioReadHandler simEnv (some 1) .MODE_RD 256 1 ⟨100, 0, 1⟩).trace.filter Ev.isPut = []) :=
  ⟨(audioReadHandler_transfers simEnv (some 1) .MODE_RD 256 1 ⟨512, 0, 1⟩
      (by decide) (by decide) (by decide) (by decide) (by decide)).1 (by decide),
   (audioReadHandler_transfers simEnv (some 1) .MODE_RD 256 1 ⟨100, 0, 1⟩
      (by decide) (by decide) (by decide) (by decide) (by decide)).2 (by decide)⟩

/-! ## Transfer lengths -/

/-- C7: for positive block size and channel count.  Capture, with
read-readiness present and `N >= block_size` frames available: the handler asks
the sound card for `F = floor(min(N, 4096 / channels) / block_size) * block_size`
frames and, when the read returns `F`, passes `F` to `putBlocks`; `F` is a
multiple of `block_size`, at most `N` and at most `4096 / channels`.  Playback:
every write of a run of `writeSpaceAvailable` comes right after an availability
query returning `S` and a `getBlocks` call asking for
`floor(min(S, 4096 / channels) / block_size)` units and returning `b`, and it
writes `b * block_size` frames, a multiple of `block_size` that is at most `S`
and at most `4096 / channels` when `b` is at most the number of units asked. -/
theorem transfer_lengths_whole_units {σ : Type} (env : Env σ) (rh ph : Option Nat)
    (rmode wmode : Mode) (bs ch : Int) (fuel : Nat) (wr ww : σ)
    (hbs : 0 < bs) (hch : 0 < ch)
    (hh : rh ≠ none) (hm : rmode = .MODE_RD ∨ rmode = .MODE_RDWR)
    (hrev : (env.revents wr).1 &&& POLLIN ≠ 0) (hN : bs ≤ availSeen env wr) :
    (∃ r,
      (audioReadHandler env rh rmode bs ch wr).trace =
        [.revents (env.revents wr).1, .avail_update (availSeen env wr),
          .readi (min (availSeen env wr) (4096 / ch) / bs * bs) r] ++
        (if r = min (availSeen env wr) (4096 / ch) / bs * bs then
          [.putBlocks (min (availSeen env wr) (4096 / ch) / bs * bs)] else []) ∧
      bs ∣ min (availSeen env wr) (4096 / ch) / bs * bs ∧
      min (availSeen env wr) (4096 / ch) / bs * bs ≤ availSeen env wr ∧
      min (availSeen env wr) (4096 / ch) / bs * bs ≤ 4096 / ch) ∧
    (∀ f r, Ev.writei f r ∈ (writeSpaceAvailable env ph wmode bs ch fuel ww).trace →
      ∃ S b,
        [Ev.avail_update S, Ev.getBlocks (min S (4096 / ch) / bs) b, Ev.writei f r] <:+:
          (writeSpaceAvailable env ph wmode bs ch fuel ww).trace ∧
        f = b * bs ∧ bs ∣ f ∧
        (b ≤ min S (4096 / ch) / bs → f ≤ S ∧ f ≤ 4096 / ch)) := by
  constructor
  · rw [audioReadHandler_ready env rh rmode bs ch wr hh hm hrev]
    rw [if_neg (by omega), if_neg (by omega)]
    have hb := whole_units (availSeen env wr) bs ch hbs _ (le_refl _)
    rcases captureTransfer_trace env bs ch (availSeen env wr)
      [.revents (env.revents wr).1, .avail_update (availSeen env wr)]
      (env.avail_update (env.revents wr).2).2 with ht | ⟨_, _, _, r, ht⟩
    · exfalso
      unfold captureTransfer at ht
      rw [if_pos (by omega), if_neg (by omega), if_neg (by omega)] at ht
      simp only [] at ht
      split_ifs at ht <;> simp at ht
    · rw [tdiv_budget _ _ _ (by omega) hbs hch] at ht
      refine ⟨r, ?_, Dvd.intro_left _ rfl, hb.1, hb.2⟩
      rw [ht]
      have hF : 0 ≤ min (availSeen env wr) (4096 / ch) / bs * bs :=
        Int.mul_nonneg (Int.ediv_nonneg (le_min (by omega)
          (Int.ediv_nonneg (by decide) (by omega))) (by omega)) (by omega)
      by_cases c : r = min (availSeen env wr) (4096 / ch) / bs * bs
      · rw [if_pos ⟨c, by omega⟩, if_pos c]
        simp [c]
      · rw [if_neg (fun h => c h.1), if_neg c]
        simp
  · intro f r hmem
    rcases writeSpaceAvailable_shape env ph wmode bs ch fuel ww with
      ⟨h1, _⟩ | ⟨h1, _⟩ | ⟨t, h1, h2⟩
    · rw [h1] at hmem; simp at hmem
    · rw [h1] at hmem; simp at hmem
    · rw [h1] at hmem ⊢
      simp only [List.mem_cons, reduceCtorEq, false_or] at hmem
      obtain ⟨S, b, hin, hS, he⟩ := loopTrace_write h2 f r hmem
      rw [tdiv_budget _ _ _ hS hbs hch] at hin
      refine ⟨S, b, List.infix_cons hin, he, ?_, ?_⟩
      · rw [he]; exact Dvd.intro_left _ rfl
      · intro hb
        rw [he]
        exact whole_units S bs ch hbs b hb
theorem transfer_lengths_whole_units_witness :
    (∃ r,
      (audioReadHandler simEnv (some 1) .MODE_RD 256 1 ⟨600, 0, 1⟩).trace =
        [.revents 1, .avail_update 600, .readi 512 r] ++
          (if r = 512 then [.putBlocks 512] else []) ∧
      (256 : Int) ∣ 512 ∧ (512 : Int) ≤ 600 ∧ (512 : Int) ≤ 4096) ∧
    (∀ f r, Ev.writei f r ∈
        (writeSpaceAvailable simEnv (some 1) .MODE_WR 256 1 2 ⟨600, 1, 4⟩).trace →
      ∃ S b,
        [Ev.avail_update S, Ev.getBlocks (min S (4096 / 1) / 256) b, Ev.writei f r] <:+:
          (writeSpaceAvailable simEnv (some 1) .MODE_WR 256 1 2 ⟨600, 1, 4⟩).trace ∧
        f = b * 256 ∧ (256 : Int) ∣ f ∧
        (b ≤ min S (4096 / 1) / 256 → f ≤ S ∧ f ≤ 4096 / 1)) :=
  transfer_lengths_whole_units simEnv (some 1) (some 1) .MODE_RD .MODE_WR 256 1 2
    ⟨600, 0, 1⟩ ⟨600, 1, 4⟩ (by decide) (by decide) (by decide) (by decide) (by decide)
    (by decide)

/-! ## Draining the producer -/

/-- C5, as stated, fails.  First run: the producer holds 20 units of 256
frames, the sound card has room for exactly 20 units (5120 frames), one
channel; one invocation asks for 16 units (the 4096-frame budget), writes 4096
frames and returns, 4 units stay queued.  Second run: nothing is queued, there
is room for two units of 4096 frames, two channels (budget 2048 frames); the
handler returns without disabling the watch. -/
theorem writeSpaceAvailable_drain_counterexample :
    (writeSpaceAvailable simEnv (some 1) .MODE_WR 256 1 9 ⟨5120, 20, 4⟩).trace =
      [.revents 4, .avail_update 5120, .getBlocks 16 16, .writei 4096 4096] ∧
    (writeSpaceAvailable simEnv (some 1) .MODE_WR 256 1 9 ⟨5120, 20, 4⟩).status = .returned ∧
    (writeSpaceAvailable simEnv (some 1) .MODE_WR 256 1 9 ⟨5120, 20, 4⟩).world.queued = 4 ∧
    framesWritten (writeSpaceAvailable simEnv (some 1) .MODE_WR 256 1 9 ⟨5120, 20, 4⟩).trace =
      4096 ∧
    (20 : Int) * 256 = 5120 ∧
    (writeSpaceAvailable simEnv (some 1) .MODE_WR 4096 2 9 ⟨8192, 0, 4⟩).trace =
      [.revents 4, .avail_update 8192] ∧
    (writeSpaceAvailable simEnv (some 1) .MODE_WR 4096 2 9 ⟨8192, 0, 4⟩).status = .returned := by
  refine ⟨by with_unfolding_all rfl, by with_unfolding_all rfl, by with_unfolding_all rfl,
    by with_unfolding_all rfl, by decide, by with_unfolding_all rfl,
    by with_unfolding_all rfl⟩

theorem inInt32_of_range (x : Int) (h1 : -2147483648 ≤ x) (h2 : x < 2147483648) :
    inInt32 x = true := by
  unfold inInt32
  simp [h1, h2]

theorem units_fit (K bs ch F : Int) (hbs : 0 < bs) (hch : 0 < ch)
    (hfit : K * bs ≤ 4096 / ch) (hF : K * bs ≤ F) (hF0 : 0 ≤ F) :
    K ≤ Int.tdiv (min F (Int.tdiv 4096 ch)) bs := by
  rw [tdiv_budget F bs ch hF0 hbs hch]
  exact Int.le_ediv_of_mul_le hbs (le_min hF hfit)

/-- C5, amended: in `writeSpaceAvailable` with write-readiness present,
positive block size and channel count and at least one loop round followed.
If the card reports `S` free frames, the producer holds exactly `K >= 1` units
(its `getBlocks` hands over the lesser of the units asked and `K`), the write
succeeds, `K * block_size <= S` and `K * block_size <= 4096 / channels` (all
`K` units fit the frame budget of one transfer), then the first write of the
invocation writes all `K` units, and when free space remains
(`K * block_size < S`) the handler returns right after it, the watch untouched.
If the producer hands over zero units, `S0 >= block_size` and
`block_size <= 4096 / channels`, the handler disables the watch and returns
with no write issued. -/
theorem writeSpaceAvailable_drains {σ : Type} (env : Env σ) (ph : Option Nat) (mode : Mode)
    (K bs ch : Int) (fuel : Nat) (w w0 : σ)
    (hph : ph ≠ none) (hmode : mode = .MODE_WR ∨ mode = .MODE_RDWR) (hfuel : 1 ≤ fuel)
    (hbs : 0 < bs) (hch : 0 < ch) (hbud : bs ≤ 4096 / ch)
    (hrv : (env.revents w).1 &&& POLLOUT ≠ 0)
    (hK : 1 ≤ K) (hfit : K * bs ≤ 4096 / ch) (hS : K * bs ≤ availSeen env w)
    (hget : blocksGot env bs ch w = min (min (availSeen env w) (4096 / ch) / bs) K)
    (hwr : firstWritten env bs ch w (K * bs) = K * bs)
    (hrv0 : (env.revents w0).1 &&& POLLOUT ≠ 0)
    (hS0 : bs ≤ availSeen env w0) (hget0 : blocksGot env bs ch w0 = 0) :
    (∃ t, (writeSpaceAvailable env ph mode bs ch fuel w).trace =
        [.revents (env.revents w).1, .avail_update (availSeen env w),
          .getBlocks (min (availSeen env w) (4096 / ch) / bs) K,
          .writei (K * bs) (K * bs)] ++ t ∧
      (K * bs < availSeen env w →
        t = [] ∧ (writeSpaceAvailable env ph mode bs ch fuel w).status = .returned)) ∧
    ((writeSpaceAvailable env ph mode bs ch fuel w0).trace =
        [.revents (env.revents w0).1, .avail_update (availSeen env w0),
          .getBlocks (min (availSeen env w0) (4096 / ch) / bs) 0, .setEnabled false] ∧
      (writeSpaceAvailable env ph mode bs ch fuel w0).status = .returned) := by
  obtain ⟨n, rfl⟩ : ∃ n, fuel = n + 1 := ⟨fuel - 1, by omega⟩
  have hKb : 0 < K * bs := Int.mul_pos (by omega) hbs
  have hc : 4096 / ch ≤ 4096 := Int.ediv_le_self _ (by decide)
  have hin : inInt32 (K * bs) = true := inInt32_of_range _ (by omega) (by omega)
  constructor
  · have hA : 0 ≤ availSeen env w := by omega
    have hM := units_fit K bs ch (availSeen env w) hbs hch hfit hS hA
    have hMe := tdiv_budget (availSeen env w) bs ch hA hbs hch
    rw [← hMe, min_eq_right hM] at hget
    rw [← hMe]
    unfold blocksGot at hget
    unfold firstWritten at hwr
    unfold availSeen at hA hM hS hget hwr ⊢
    unfold writeSpaceAvailable
    rw [if_neg hph, if_neg (not_not.mpr hmode)]
    simp only []
    rw [if_neg hrv]
    unfold writeLoop
    simp only []
    generalize env.avail_update (env.revents w).2 = A at hA hM hS hget hwr ⊢
    generalize Int.tdiv (min A.1 (Int.tdiv 4096 ch)) bs = M at hM hget hwr ⊢
    generalize env.getBlocks M A.2 = G at hget hwr ⊢
    rw [hget]
    generalize env.writei (K * bs) G.2 = X at hwr ⊢
    rw [hwr]
    rw [if_neg (by omega), if_neg (by omega), if_neg (by omega), if_neg (by omega),
      if_neg (by omega), if_neg (by rw [hin]; simp), if_neg (by omega), if_neg (by simp)]
    by_cases c : K * bs ≠ A.1
    · rw [if_pos c]
      exact ⟨[], rfl, fun _ => ⟨rfl, rfl⟩⟩
    · rw [if_neg c]
      exact ⟨_, rfl, fun h => absurd (not_not.mp c) (by omega)⟩
  · have hA : 0 ≤ availSeen env w0 := by omega
    have hM := units_fit 1 bs ch (availSeen env w0) hbs hch (by omega) (by omega) hA
    have hMe := tdiv_budget (availSeen env w0) bs ch hA hbs hch
    rw [← hMe]
    unfold blocksGot at hget0
    unfold availSeen at hA hM hget0 ⊢
    unfold writeSpaceAvailable
    rw [if_neg hph, if_neg (not_not.mpr hmode)]
    simp only []
    rw [if_neg hrv0]
    unfold writeLoop
    simp only []
    generalize env.avail_update (env.revents w0).2 = A at hA hM hget0 ⊢
    generalize Int.tdiv (min A.1 (Int.tdiv 4096 ch)) bs = M at hM hget0 ⊢
    generalize env.getBlocks M A.2 = G at hget0 ⊢
    rw [hget0]
    rw [if_neg (by omega), if_neg (by omega), if_neg (by omega), if_neg (by omega),
      if_pos rfl]
    exact ⟨rfl, rfl⟩

theorem writeSpaceAvailable_drains_witness :
    (∃ t, (writeSpaceAvailable simEnv (some 1) .MODE_WR 256 1 2 ⟨1024, 2, 4⟩).trace =
        [.revents 4, .avail_update 1024, .getBlocks 4 2, .writei 512 512] ++ t ∧
      ((2 : Int) * 256 < 1024 →
        t = [] ∧
        (writeSpaceAvailable simEnv (some 1) .MODE_WR 256 1 2 ⟨1024, 2, 4⟩).status =
          .returned)) ∧
    ((writeSpaceAvailable simEnv (some 1) .MODE_WR 256 1 2 ⟨300, 0, 4⟩).trace =
        [.revents 4, .avail_update 300, .getBlocks 1 0, .setEnabled false] ∧
      (writeSpaceAvailable simEnv (some 1) .MODE_WR 256 1 2 ⟨300, 0, 4⟩).status = .returned) :=
  writeSpaceAvailable_drains simEnv (some 1) .MODE_WR 2 256 1 2 ⟨1024, 2, 4⟩ ⟨300, 0, 4⟩
    (by decide) (Or.inl rfl) (by decide) (by decide) (by decide) (by decide) (by decide)
    (by decide) (by decide) (by decide) (by with_unfolding_all decide)
    (by with_unfolding_all decide) (by decide) (by decide) (by with_unfolding_all decide)
end AudioDeviceAlsa
